import Mathlib

/-!
# Transaction submitter of the Stellar gateway (bridge)

A shallow embedding of `submitter/transaction_submitter.go`.

* Go `uint64` values are natural numbers reduced modulo `2 ^ 64` where the
  source can overflow (`account.SequenceNumber++`).
* The collaborators the submitter talks to (the keypair library, the XDR
  encoder, the hash library, the transaction builder, the Horizon client, the
  entity manager and the clock) are fields of an environment `Env W`.  The
  stateful ones thread an arbitrary world `W`, so that their answers may depend
  on everything that happened before.
* Every call the submitter makes to a collaborator is recorded as an `Event`,
  in program order.
* Locking and logging have no effect on a sequential run and are left out; the
  transaction pointer handed to `SignAndSubmitRawTransaction` is taken to be
  non-nil.
-/

namespace Submitter

/-- A Go `error` value; `Option Error` is an `error` that may be nil. -/
abbrev Error := String

/-- A byte string (`[]byte`), one natural number per byte. -/
abbrev Bytes := List Nat

/-- The largest `uint64`. -/
def maxUint64 : Nat := 18446744073709551615

/-- The number of `uint64` values. -/
def uint64Size : Nat := 18446744073709551616

/-- The result of `hash.Hash`, a `[32]byte`. -/
abbrev Digest := { bs : Bytes // bs.length = 32 }

/-! ## strconv.ParseUint(s, 10, 64) -/

/-- The error `strconv.ParseUint` returns for an empty string or a character
that is not a decimal digit: a `*strconv.NumError` with `Err = ErrSyntax`.  The
text names the function and the kind of error; Go's message also quotes the
input between the two (`parsing "<input>": `), which is left out here.  No
statement below reads the text of a parse error. -/
def errParseDigits : Error := "strconv.ParseUint: invalid syntax"

/-- The error `strconv.ParseUint` returns when the value does not fit: a
`*strconv.NumError` with `Err = ErrRange`; the quoted input is left out of the
text as in `errParseDigits`. -/
def errParseRange : Error := "strconv.ParseUint: value out of range"

/-- The digit loop of `strconv.ParseUint` for base 10 and 64 bits: a character
that is not a digit stops with `(0, syntax error)`, an overflow stops with
`(maxUint64, range error)`. -/
def parseUintLoop : List Char → Nat → Nat × Option Error
  | [], n => (n, none)
  | c :: cs, n =>
    if c.isDigit then
      if n ≥ maxUint64 / 10 + 1 then (maxUint64, some errParseRange)
      else
        let n1 := n * 10 + (c.toNat - 48)
        if n1 > maxUint64 then (maxUint64, some errParseRange)
        else parseUintLoop cs n1
    else (0, some errParseDigits)

/-- Go: `strconv.ParseUint(s, 10, 64)`, value and error. -/
def ParseUint (s : String) : Nat × Option Error :=
  match s.data with
  | [] => (0, some errParseDigits)
  | cs => parseUintLoop cs 0

/-! ## encoding/hex, []byte(string) -/

/-- One lower-case hexadecimal digit. -/
def hexDigit (n : Nat) : Char :=
  "0123456789abcdef".data.getD n '0'

/-- Go: `hex.EncodeToString`. -/
def hexEncodeToString (bs : Bytes) : String :=
  String.mk (bs.flatMap fun b => [hexDigit (b / 16 % 16), hexDigit (b % 16)])

/-- Go: `[]byte(s)`, the UTF-8 bytes of the string. -/
def stringBytes (s : String) : Bytes :=
  s.data.flatMap fun c => (String.utf8EncodeChar c).map UInt8.toNat

/-! ## Data model -/

/-- A parsed keypair (`keypair.KP`): its address and the key material the
signing primitive works on. -/
structure KP where
  Address : String
  Key : String
  deriving DecidableEq, Repr

/-- Go: `Account`.  `Keypair` is an interface value and may be nil; the mutex
is not modelled. -/
structure Account where
  Keypair : Option KP
  Seed : String
  SequenceNumber : Nat
  deriving DecidableEq, Repr

/-- The zero value `Account{}` allocated at the start of `LoadAccount`. -/
def Account.zero : Account := { Keypair := none, Seed := "", SequenceNumber := 0 }

/-- Go: `xdr.Transaction`.  `SeqNum` holds the 64-bit pattern of the sequence
number; `Rest` stands for every other field of the body. -/
structure Transaction where
  SeqNum : Nat
  Rest : String
  deriving DecidableEq, Repr

/-- Go: `xdr.DecoratedSignature`. -/
structure DecoratedSignature where
  Hint : Bytes
  Signature : Bytes
  deriving DecidableEq, Repr

/-- Go: `xdr.TransactionEnvelope`. -/
structure TransactionEnvelope where
  Tx : Transaction
  Signatures : List DecoratedSignature
  deriving DecidableEq, Repr

/-- Go: `xdr.EnvelopeType`; the hash uses `EnvelopeTypeEnvelopeTypeTx`. -/
inductive EnvelopeType where
  | EnvelopeTypeScp
  | EnvelopeTypeTx
  | EnvelopeTypeAuth
  deriving DecidableEq, Repr

/-- Go: `horizon.AccountResponse`, the field the submitter reads. -/
structure AccountResponse where
  SequenceNumber : String
  deriving DecidableEq, Repr

/-- Go: `horizon.SubmitTransactionResponseExtras`, the field the submitter
reads. -/
structure SubmitTransactionResponseExtras where
  ResultXdr : String
  deriving DecidableEq, Repr

/-- Go: `horizon.SubmitTransactionResponse`.  `Ledger` and `Extras` are
pointers and may be nil. -/
structure SubmitTransactionResponse where
  Ledger : Option Nat
  Extras : Option SubmitTransactionResponseExtras
  deriving DecidableEq, Repr

/-- The zero value of the named result `response`. -/
def SubmitTransactionResponse.zero : SubmitTransactionResponse :=
  { Ledger := none, Extras := none }

/-- Status of a submission record. -/
inductive SentTransactionStatus where
  | Sending
  | Succeeded
  | Failed
  deriving DecidableEq, Repr

/-- Go: `entities.SentTransaction`.  The first five fields are the ones the
submitter sets; `Ledger` and `ResultXdr` are what the terminal update
records. -/
structure SentTransaction where
  TransactionID : String
  Status : SentTransactionStatus
  Source : String
  SubmittedAt : Nat
  EnvelopeXdr : String
  Ledger : Option Nat
  ResultXdr : Option String
  deriving DecidableEq, Repr

/-- Modelled from the spec: `SentTransaction.MarkSucceeded` lives in
`db/entities`, which is not part of the sources at hand.  The spec: "Update the
record to Succeeded(ledger number)". -/
def SentTransaction.MarkSucceeded (e : SentTransaction) (ledger : Nat) : SentTransaction :=
  { e with Status := SentTransactionStatus.Succeeded, Ledger := some ledger }

/-- Modelled from the spec: `SentTransaction.MarkFailed` lives in
`db/entities`, which is not part of the sources at hand.  The spec: "Update the
record to Failed(result code)". -/
def SentTransaction.MarkFailed (e : SentTransaction) (resultXdr : String) : SentTransaction :=
  { e with Status := SentTransactionStatus.Failed, ResultXdr := some resultXdr }

/-- A `build.TransactionMutator`: the three kinds the submitter creates itself
and the ones callers hand in (operations, memos), kept as opaque payloads. -/
inductive Mutator where
  | SourceAccount (addressOrSeed : String)
  | Sequence (n : Nat)
  | Network (passphrase : String)
  | Operation (payload : String)
  | Memo (payload : String)
  deriving DecidableEq, Repr

/-- An `interface{}` argument: nil, a value that implements
`build.TransactionMutator`, or a value of some other type. -/
inductive Iface where
  | nil
  | mutator (m : Mutator)
  | other (typeName : String)
  deriving DecidableEq, Repr

/-- Go: `build.TransactionBuilder`, the two fields the submitter reads.  `TX`
is never nil after `build.Transaction`. -/
structure TransactionBuilder where
  TX : Transaction
  Err : Option Error
  deriving DecidableEq, Repr

/-- A call to a collaborator, as the submitter makes it, with what the
collaborator answered. -/
inductive Event where
  | loadAccount (address : String) (response : AccountResponse) (err : Option Error)
  | hash (tx : Transaction) (passphrase : String)
  | sign (kp : KP) (digest : Bytes)
  | persist (record : SentTransaction) (err : Option Error)
  | submit (txeB64 : String) (response : SubmitTransactionResponse) (err : Option Error)
  deriving DecidableEq, Repr

/-- The collaborators of the submitter.  `W` is the state of the outside world
(network, database, clock). -/
structure Env (W : Type) where
  /-- Go: `keypair.Parse`; it returns a nil keypair together with an error. -/
  keypairParse : String → Except Error KP
  /-- Go: `KP.SignDecorated`. -/
  signDecorated : KP → Bytes → Except Error DecoratedSignature
  /-- Go: `hash.Hash`. -/
  hashHash : Bytes → Digest
  /-- Go: `xdr.Marshal` of an envelope type: the bytes written, or an error. -/
  xdrMarshalEnvelopeType : EnvelopeType → Except Error Bytes
  /-- Go: `xdr.Marshal` of a transaction: the bytes written, or an error. -/
  xdrMarshalTransaction : Transaction → Except Error Bytes
  /-- Go: `xdr.MarshalBase64` of an envelope. -/
  xdrMarshalBase64 : TransactionEnvelope → Except Error String
  /-- Go: `build.Transaction(mutators...)`. -/
  buildTransaction : List Mutator → TransactionBuilder
  /-- Go: `Horizon.LoadAccount`. -/
  horizonLoadAccount : W → String → (AccountResponse × Option Error) × W
  /-- Go: `Horizon.SubmitTransaction`. -/
  horizonSubmitTransaction : W → String → (SubmitTransactionResponse × Option Error) × W
  /-- Go: `EntityManager.Persist`. -/
  persist : W → SentTransaction → Option Error × W
  /-- Go: the injected clock `now`. -/
  now : W → Nat × W

/-- Go: `TransactionSubmitter`, together with the world its collaborators
live in. -/
structure TransactionSubmitter (W : Type) where
  Accounts : String → Option Account
  Network : String
  world : W

/-- Go: `NewTransactionSubmitter`: an empty account map and the configured
network; `w` is the world of the injected collaborators. -/
def NewTransactionSubmitter {W : Type} (networkPassphrase : String) (w : W) :
    TransactionSubmitter W :=
  { Accounts := fun _ => none, Network := networkPassphrase, world := w }

/-- The map update `ts.Accounts[seed] = account`. -/
def TransactionSubmitter.setAccount {W : Type} (ts : TransactionSubmitter W)
    (seed : String) (account : Account) : TransactionSubmitter W :=
  { ts with Accounts := fun k => if k = seed then some account else ts.Accounts k }

/-- The sequence counter cached for a seed, if the seed is in the map. -/
def TransactionSubmitter.cachedSeq {W : Type} (ts : TransactionSubmitter W)
    (seed : String) : Option Nat :=
  (ts.Accounts seed).map Account.SequenceNumber

/-- How a submit call ends: it returns `(response, err)`, or it panics on a
nil keypair. -/
inductive Outcome where
  | returned (response : SubmitTransactionResponse) (err : Option Error)
  | panicked
  deriving DecidableEq, Repr

/-- The result of running a submit call: how it ended, the submitter
afterwards, and the collaborator calls it made. -/
structure Result (W : Type) where
  outcome : Outcome
  ts : TransactionSubmitter W
  events : List Event

/-- The sentinel result code the ledger answers for a bad sequence number. -/
def badSequenceResult : String := "AAAAAAAAAAD////7AAAAAA=="

/-! ## TransactionHash -/

/-- Go: `fmt.Fprintf(&txBytes, "%s", digest)` into a `bytes.Buffer`.  The verb
`%s` writes the bytes of a byte array uninterpreted, and writing to a buffer
does not fail. -/
def fprintfDigest (buf : Bytes) (digest : Digest) : Bytes × Option Error :=
  (buf ++ digest.val, none)

/-- Go: `xdr.Marshal(&txBytes, v)`: the encoding of `v` is appended to the
buffer, or the encoder's error is returned. -/
def marshalInto (buf : Bytes) (encoded : Except Error Bytes) : Bytes × Option Error :=
  match encoded with
  | .ok bs => (buf ++ bs, none)
  | .error err => (buf, some err)

/-- Go: `TransactionHash`. -/
def TransactionHash {W : Type} (env : Env W) (tx : Transaction)
    (networkPassphrase : String) : Except Error Digest :=
  let txBytes : Bytes := []
  match fprintfDigest txBytes (env.hashHash (stringBytes networkPassphrase)) with
  | (_, some err) => .error err
  | (txBytes1, none) =>
    match marshalInto txBytes1 (env.xdrMarshalEnvelopeType EnvelopeType.EnvelopeTypeTx) with
    | (_, some err) => .error err
    | (txBytes2, none) =>
      match marshalInto txBytes2 (env.xdrMarshalTransaction tx) with
      | (_, some err) => .error err
      | (txBytes3, none) => .ok (env.hashHash txBytes3)

/-- The digest as the spec words it: hash of the passphrase hash, followed by
the encoded envelope type, followed by the encoded body. -/
def specComputeHash {W : Type} (env : Env W) (tx : Transaction)
    (networkPassphrase : String) : Except Error Digest :=
  match env.xdrMarshalEnvelopeType EnvelopeType.EnvelopeTypeTx,
      env.xdrMarshalTransaction tx with
  | .ok typeBytes, .ok bodyBytes =>
    .ok (env.hashHash
      ((env.hashHash (stringBytes networkPassphrase)).val ++ typeBytes ++ bodyBytes))
  | .error err, _ => .error err
  | .ok _, .error err => .error err

/-! ## The account cache -/

/-- What `LoadAccount` and `GetAccount` hand back: the account pointer (never
nil), the error, the submitter afterwards and the collaborator calls made. -/
structure AccountResult (W : Type) where
  account : Account
  err : Option Error
  ts : TransactionSubmitter W
  events : List Event

/-- Go: `TransactionSubmitter.LoadAccount`. -/
def LoadAccount {W : Type} (env : Env W) (ts : TransactionSubmitter W)
    (seed : String) : AccountResult W :=
  match env.keypairParse seed with
  | .error err => ⟨Account.zero, some err, ts, []⟩
  | .ok kp =>
    match env.horizonLoadAccount ts.world kp.Address with
    | ((accountResponse, some err), w) =>
      ⟨{ Account.zero with Keypair := some kp }, some err, { ts with world := w },
        [Event.loadAccount kp.Address accountResponse (some err)]⟩
    | ((accountResponse, none), w) =>
      ⟨{ Keypair := some kp, Seed := seed,
         SequenceNumber := (ParseUint accountResponse.SequenceNumber).1 },
        (ParseUint accountResponse.SequenceNumber).2, { ts with world := w },
        [Event.loadAccount kp.Address accountResponse none]⟩

/-- Go: `TransactionSubmitter.GetAccount`. -/
def GetAccount {W : Type} (env : Env W) (ts : TransactionSubmitter W)
    (seed : String) : AccountResult W :=
  match ts.Accounts seed with
  | some account => ⟨account, none, ts, []⟩
  | none =>
    let loaded := LoadAccount env ts seed
    { loaded with ts := loaded.ts.setAccount seed loaded.account }

/-- Go: `TransactionSubmitter.InitAccount`: the error, the submitter afterwards
and the collaborator calls made. -/
def InitAccount {W : Type} (env : Env W) (ts : TransactionSubmitter W)
    (seed : String) : Option Error × TransactionSubmitter W × List Event :=
  let r := GetAccount env ts seed
  (r.err, r.ts, r.events)

/-! ## Submission -/

/-- Lines 161-171 of the source: the record is marked with the outcome the
response carries. -/
def markTerminal (sentTransaction : SentTransaction)
    (response : SubmitTransactionResponse) : SentTransaction :=
  match response.Ledger with
  | some ledger => sentTransaction.MarkSucceeded ledger
  | none =>
    let result : String :=
      match response.Extras with
      | some extras => extras.ResultXdr
      | none => "<empty>"
    sentTransaction.MarkFailed result

/-- The condition of the "Sync sequence number" block (line 178). -/
def needsSync (response : SubmitTransactionResponse) : Bool :=
  match response.Extras with
  | some extras => extras.ResultXdr == badSequenceResult
  | none => false

/-- Go: `TransactionSubmitter.SignAndSubmitRawTransaction`. -/
def SignAndSubmitRawTransaction {W : Type} (env : Env W) (ts : TransactionSubmitter W)
    (seed : String) (tx : Transaction) : Result W :=
  let got := GetAccount env ts seed
  match got.err with
  | some err => ⟨.returned .zero (some err), got.ts, got.events⟩
  | none =>
    -- account.SequenceNumber++ ; tx.SeqNum = xdr.SequenceNumber(account.SequenceNumber)
    let account : Account :=
      { got.account with SequenceNumber := (got.account.SequenceNumber + 1) % uint64Size }
    let tx1 : Transaction := { tx with SeqNum := account.SequenceNumber }
    let ts1 := got.ts.setAccount seed account
    let ev1 := got.events ++ [Event.hash tx1 ts1.Network]
    match TransactionHash env tx1 ts1.Network with
    | .error err => ⟨.returned .zero (some err), ts1, ev1⟩
    | .ok hash =>
      match account.Keypair with
      | none => ⟨.panicked, ts1, ev1⟩
      | some kp =>
        let ev2 := ev1 ++ [Event.sign kp hash.val]
        match env.signDecorated kp hash.val with
        | .error err => ⟨.returned .zero (some err), ts1, ev2⟩
        | .ok sig =>
          let envelopeXdr : TransactionEnvelope := { Tx := tx1, Signatures := [sig] }
          match env.xdrMarshalBase64 envelopeXdr with
          | .error err => ⟨.returned .zero (some err), ts1, ev2⟩
          | .ok txeB64 =>
            let ev3 := ev2 ++ [Event.hash tx1 ts1.Network]
            match TransactionHash env tx1 ts1.Network with
            | .error err => ⟨.returned .zero (some err), ts1, ev3⟩
            | .ok transactionHashBytes =>
              let clock := env.now ts1.world
              let sentTransaction : SentTransaction :=
                { TransactionID := hexEncodeToString transactionHashBytes.val
                  Status := SentTransactionStatus.Sending
                  Source := kp.Address
                  SubmittedAt := clock.1
                  EnvelopeXdr := txeB64
                  Ledger := none
                  ResultXdr := none }
              let stored := env.persist clock.2 sentTransaction
              let ev4 := ev3 ++ [Event.persist sentTransaction stored.1]
              match stored.1 with
              | some err => ⟨.returned .zero (some err), { ts1 with world := stored.2 }, ev4⟩
              | none =>
                let submitted := env.horizonSubmitTransaction stored.2 txeB64
                let response := submitted.1.1
                let ev5 := ev4 ++ [Event.submit txeB64 response submitted.1.2]
                match submitted.1.2 with
                | some err => ⟨.returned response (some err), { ts1 with world := submitted.2 }, ev5⟩
                | none =>
                  let sentTransaction1 := markTerminal sentTransaction response
                  let stored1 := env.persist submitted.2 sentTransaction1
                  let ev6 := ev5 ++ [Event.persist sentTransaction1 stored1.1]
                  match stored1.1 with
                  | some err =>
                    ⟨.returned response (some err), { ts1 with world := stored1.2 }, ev6⟩
                  | none =>
                    -- Sync sequence number
                    if needsSync response then
                      let loaded := env.horizonLoadAccount stored1.2 kp.Address
                      let ev7 := ev6 ++ [Event.loadAccount kp.Address loaded.1.1 loaded.1.2]
                      match loaded.1.2 with
                      | some _ => ⟨.returned response none, { ts1 with world := loaded.2 }, ev7⟩
                      | none =>
                        let account1 : Account :=
                          { account with
                            SequenceNumber := (ParseUint loaded.1.1.SequenceNumber).1 }
                        ⟨.returned response none,
                          { ts1.setAccount seed account1 with world := loaded.2 }, ev7⟩
                    else
                      ⟨.returned response none, { ts1 with world := stored1.2 }, ev6⟩

/-- Go: `TransactionSubmitter.SubmitTransaction`.  `memo` is nil when it is
`Iface.nil`. -/
def SubmitTransaction {W : Type} (env : Env W) (ts : TransactionSubmitter W)
    (seed : String) (operation memo : Iface) : Result W :=
  let got := GetAccount env ts seed
  match got.err with
  | some err => ⟨.returned .zero (some err), got.ts, got.events⟩
  | none =>
    match operation with
    | .nil | .other _ =>
      ⟨.returned .zero (some "Cannot cast operationMutator to build.TransactionMutator"),
        got.ts, got.events⟩
    | .mutator operationMutator =>
      let mutators : List Mutator :=
        [Mutator.SourceAccount got.account.Seed, Mutator.Network got.ts.Network,
          operationMutator]
      match memo with
      | .other _ =>
        ⟨.returned .zero (some "Cannot cast memo to build.TransactionMutator"),
          got.ts, got.events⟩
      | .nil =>
        let txBuilder := env.buildTransaction mutators
        let r := SignAndSubmitRawTransaction env got.ts seed txBuilder.TX
        { r with events := got.events ++ r.events }
      | .mutator memoMutator =>
        let txBuilder := env.buildTransaction (mutators ++ [memoMutator])
        let r := SignAndSubmitRawTransaction env got.ts seed txBuilder.TX
        { r with events := got.events ++ r.events }

/-- Go: `BuildTransaction`: the transaction pointer (nil when a cast fails) and
the error. -/
def BuildTransaction {W : Type} (env : Env W) (accountID networkPassphrase : String)
    (operation memo : Iface) : Option Transaction × Option Error :=
  match operation with
  | .nil | .other _ =>
    (none, some "Cannot cast operationMutator to build.TransactionMutator")
  | .mutator operationMutator =>
    let mutators : List Mutator :=
      [Mutator.SourceAccount accountID, Mutator.Sequence 0,
        Mutator.Network networkPassphrase, operationMutator]
    match memo with
    | .other _ => (none, some "Cannot cast memo to build.TransactionMutator")
    | .nil =>
      let txBuilder := env.buildTransaction mutators
      (some txBuilder.TX, txBuilder.Err)
    | .mutator memoMutator =>
      let txBuilder := env.buildTransaction (mutators ++ [memoMutator])
      (some txBuilder.TX, txBuilder.Err)

/-! ## strconv.FormatUint and a simulated world

The collaborators below are a small, fully computable stand-in for the real
ones: a ledger that holds one sequence counter and accepts exactly the next
sequence number, a store and a network whose failures follow a plan, and toy
encoders.  They serve to run the submitter on concrete inputs. -/

/-- One decimal digit. -/
def decDigit (n : Nat) : Char :=
  "0123456789".data.getD n '0'

/-- The decimal digits of `n`, most significant first; `fuel` bounds the
number of digits. -/
def formatUintAux : Nat → Nat → List Char
  | 0, _ => []
  | fuel + 1, n =>
    if n < 10 then [decDigit n]
    else formatUintAux fuel (n / 10) ++ [decDigit (n % 10)]

/-- Go: `strconv.FormatUint(n, 10)` for a `uint64`, which has at most twenty
digits. -/
def FormatUint (n : Nat) : String :=
  String.mk (formatUintAux 20 n)

/-- The simulated outside world. -/
structure SimWorld where
  /-- The sequence counter the ledger holds for the account. -/
  ledgerSeq : Nat
  /-- The clock reading. -/
  clock : Nat
  /-- The answers of the next `Persist` calls; later calls succeed. -/
  persistPlan : List (Option Error)
  /-- The transport failures of the next `SubmitTransaction` calls. -/
  submitPlan : List (Option Error)
  /-- The transport failures of the next `LoadAccount` calls. -/
  loadPlan : List (Option Error)
  deriving DecidableEq, Repr

/-- The counter the simulated ledger holds, as a `uint64`. -/
def simLedger (w : SimWorld) : Nat := min w.ledgerSeq maxUint64

/-- The simulated clock. -/
def simNow (w : SimWorld) : Nat × SimWorld :=
  (w.clock, { w with clock := w.clock + 1 })

/-- The simulated store. -/
def simPersist (w : SimWorld) (_record : SentTransaction) : Option Error × SimWorld :=
  match w.persistPlan with
  | [] => (none, w)
  | answer :: rest => (answer, { w with persistPlan := rest })

/-- The simulated `Horizon.LoadAccount`: it reports the ledger's counter. -/
def simLoadAccount (w : SimWorld) (_address : String) :
    (AccountResponse × Option Error) × SimWorld :=
  match w.loadPlan with
  | some err :: rest => (({ SequenceNumber := "" }, some err), { w with loadPlan := rest })
  | none :: rest =>
    (({ SequenceNumber := FormatUint (simLedger w) }, none), { w with loadPlan := rest })
  | [] => (({ SequenceNumber := FormatUint (simLedger w) }, none), w)

/-- The simulated envelope encoding: as many characters as the sequence
number. -/
def simMarshalBase64 (e : TransactionEnvelope) : Except Error String :=
  .ok (String.mk (List.replicate e.Tx.SeqNum 'x'))

/-- What the simulated ledger answers to an envelope with sequence number `q`:
it accepts exactly the successor of its counter and answers the bad-sequence
result code to everything else. -/
def simLedgerAnswer (w : SimWorld) (q : Nat) : SubmitTransactionResponse × SimWorld :=
  if q = simLedger w + 1 ∧ q ≤ maxUint64 then
    ({ Ledger := some (7000 + q), Extras := none }, { w with ledgerSeq := q })
  else
    ({ Ledger := none, Extras := some { ResultXdr := badSequenceResult } }, w)

/-- The simulated `Horizon.SubmitTransaction`. -/
def simSubmitTransaction (w : SimWorld) (txeB64 : String) :
    (SubmitTransactionResponse × Option Error) × SimWorld :=
  match w.submitPlan with
  | some err :: rest =>
    ((SubmitTransactionResponse.zero, some err), { w with submitPlan := rest })
  | none :: rest =>
    let answer := simLedgerAnswer { w with submitPlan := rest } txeB64.length
    ((answer.1, none), answer.2)
  | [] =>
    let answer := simLedgerAnswer w txeB64.length
    ((answer.1, none), answer.2)

/-- The simulated `keypair.Parse`: a seed starts with `S`. -/
def simKeypairParse (seed : String) : Except Error KP :=
  if seed.data.head? = some 'S' then
    .ok { Address := String.mk ('G' :: seed.data.tail), Key := seed }
  else .error "invalid seed"

/-- The simulated `build.Transaction`: the body lists the payloads of the
mutators, and an operation with an empty payload is an error. -/
def simBuildTransaction (mutators : List Mutator) : TransactionBuilder :=
  { TX :=
      { SeqNum := 0
        Rest := String.join (mutators.map fun m =>
          match m with
          | Mutator.SourceAccount s => s
          | Mutator.Sequence _ => ""
          | Mutator.Network p => p
          | Mutator.Operation payload => payload
          | Mutator.Memo payload => payload) }
    Err := if Mutator.Operation "" ∈ mutators then some "invalid operation" else none }

/-- The simulated collaborators. -/
def simEnv : Env SimWorld where
  keypairParse := simKeypairParse
  signDecorated := fun _ digest => .ok { Hint := digest.take 4, Signature := digest }
  hashHash := fun bs => ⟨List.replicate 32 (bs.sum % 256), List.length_replicate 32 _⟩
  xdrMarshalEnvelopeType := fun t =>
    match t with
    | EnvelopeType.EnvelopeTypeScp => .ok [0, 0, 0, 1]
    | EnvelopeType.EnvelopeTypeTx => .ok [0, 0, 0, 2]
    | EnvelopeType.EnvelopeTypeAuth => .ok [0, 0, 0, 3]
  xdrMarshalTransaction := fun tx => .ok [tx.SeqNum % 256, tx.Rest.length % 256]
  xdrMarshalBase64 := simMarshalBase64
  buildTransaction := simBuildTransaction
  horizonLoadAccount := simLoadAccount
  horizonSubmitTransaction := simSubmitTransaction
  persist := simPersist
  now := simNow

/-- A quiet world in which the ledger's counter is `ledgerSeq`. -/
def simWorld (ledgerSeq : Nat) : SimWorld :=
  { ledgerSeq := ledgerSeq, clock := 1, persistPlan := [], submitPlan := [], loadPlan := [] }

/-- The network passphrase of the simulated submitters. -/
def simPassphrase : String := "Test SDF Network ; September 2015"

/-- The seed used in the runs below. -/
def simSeed : String := "SEED"

/-- The account the simulated keypair library derives from `simSeed`, with the
given cached counter. -/
def simAccount (sequenceNumber : Nat) : Account :=
  { Keypair := some { Address := "GEED", Key := "SEED" }, Seed := "SEED",
    SequenceNumber := sequenceNumber }

/-- A submitter whose cache holds `simSeed` with the given counter. -/
def simSubmitter (cached : Nat) (w : SimWorld) : TransactionSubmitter SimWorld :=
  { Accounts := fun k => if k = simSeed then some (simAccount cached) else none
    Network := simPassphrase
    world := w }

/-- A submitter with an empty cache. -/
def simFreshSubmitter (w : SimWorld) : TransactionSubmitter SimWorld :=
  NewTransactionSubmitter simPassphrase w

/-- A transaction body to submit. -/
def simTx : Transaction := { SeqNum := 0, Rest := "payment" }

/-- The Sending record the submitter composes for `simTx` stamped with `seq`
when the clock reads `clock`. -/
def simSendingRecord (seq clock : Nat) : SentTransaction :=
  { TransactionID :=
      match TransactionHash simEnv { simTx with SeqNum := seq } simPassphrase with
      | .ok digest => hexEncodeToString digest.val
      | .error _ => ""
    Status := SentTransactionStatus.Sending
    Source := "GEED"
    SubmittedAt := clock
    EnvelopeXdr := String.mk (List.replicate seq 'x')
    Ledger := none
    ResultXdr := none }

/-- A world whose ledger is at 100 and whose `LoadAccount` fails once. -/
def simWorldLoadDown : SimWorld :=
  { simWorld 100 with loadPlan := [some "horizon unreachable"] }

/-- A world whose ledger is at 100 and whose store fails at the second call. -/
def simWorldStoreDownLater : SimWorld :=
  { simWorld 100 with persistPlan := [none, some "db down"] }

/-- A world whose ledger is at 100 and whose store fails twice. -/
def simWorldStoreDown : SimWorld :=
  { simWorld 100 with persistPlan := [some "db down", some "db down"] }

/-- The rejection the simulated ledger answers to a wrong sequence number. -/
def simBadSequence : SubmitTransactionResponse :=
  { Ledger := none, Extras := some { ResultXdr := badSequenceResult } }

/-- A response that carries a ledger number and, in its extras, the
bad-sequence result code. -/
def simSucceededBadSequence : SubmitTransactionResponse :=
  { Ledger := some 7, Extras := some { ResultXdr := badSequenceResult } }

/-- The simulated collaborators with a ledger client that answers every submit
with `simSucceededBadSequence`. -/
def simEnvSucceededBadSequence : Env SimWorld :=
  { simEnv with
    horizonSubmitTransaction := fun w _ => ((simSucceededBadSequence, none), w) }

/-! ## The ledger as a counter -/

/-- The ledger of the sequence invariant, in the words of the claim: the ledger
holds a counter (read off the world by `ledger`) and accepts exactly the next
sequence number.  The counter changes only when the ledger client submits the
envelope of a transaction carrying the counter plus one, and then it moves to
that number; the clock, the store and `LoadAccount` leave it alone; a
successful `LoadAccount` reports it. -/
structure LedgerModel {W : Type} (env : Env W) (ledger : W → Nat) : Prop where
  now_ledger : ∀ w, ledger (env.now w).2 = ledger w
  persist_ledger : ∀ w record, ledger (env.persist w record).2 = ledger w
  load_ledger : ∀ w address, ledger (env.horizonLoadAccount w address).2 = ledger w
  load_reports : ∀ w address, (env.horizonLoadAccount w address).1.2 = none →
    ParseUint (env.horizonLoadAccount w address).1.1.SequenceNumber = (ledger w, none)
  submit_ledger : ∀ w e txeB64, env.xdrMarshalBase64 e = Except.ok txeB64 →
    ledger (env.horizonSubmitTransaction w txeB64).2 = ledger w ∨
    (e.Tx.SeqNum = ledger w + 1 ∧
      ledger (env.horizonSubmitTransaction w txeB64).2 = ledger w + 1)

/-! ## Reading the record of collaborator calls -/

/-- The `Persist` calls among the events: the record handed over and the
answer, in program order. -/
def persistsOf (events : List Event) : List (SentTransaction × Option Error) :=
  events.filterMap fun ev =>
    match ev with
    | Event.persist record err => some (record, err)
    | _ => none

/-- The `Horizon.LoadAccount` calls among the events, in program order. -/
def loadsOf (events : List Event) : List (String × AccountResponse × Option Error) :=
  events.filterMap fun ev =>
    match ev with
    | Event.loadAccount address response err => some (address, response, err)
    | _ => none

/-- The `Horizon.SubmitTransaction` calls among the events, in program order. -/
def submitsOf (events : List Event) :
    List (String × SubmitTransactionResponse × Option Error) :=
  events.filterMap fun ev =>
    match ev with
    | Event.submit txeB64 response err => some (txeB64, response, err)
    | _ => none

/-- The result code a response carries, if it has extras. -/
def resultCode (response : SubmitTransactionResponse) : Option String :=
  response.Extras.map SubmitTransactionResponseExtras.ResultXdr

/-! ## The transaction composer, as the spec describes it

`build.Transaction` belongs to the ledger-protocol library, which is not part
of the sources at hand; the submitter takes it as `Env.buildTransaction`.  The
definitions below follow the spec's description of the composer. -/

/-- The accumulator of the composer: the fields set so far. -/
structure ComposeState where
  source : Option String
  sequence : Option Nat
  network : Option String
  operations : List String
  memo : Option String
  deriving DecidableEq, Repr

/-- The empty accumulator. -/
def ComposeState.empty : ComposeState :=
  { source := none, sequence := none, network := none, operations := [], memo := none }

/-- The transaction body an accumulator stands for. -/
def ComposeState.toTransaction (acc : ComposeState) : Transaction :=
  { SeqNum := acc.sequence.getD 0
    Rest := String.join [acc.source.getD "", "|", String.join acc.operations, "|",
      acc.memo.getD ""] }

/-- Modelled from the spec: a mutator of the composer of the ledger-protocol
library (`build.TransactionMutator`), which is not part of the sources at
hand.  The spec: "fails with `MutatorConflict` if two mutators attempt to set
the same required field (e.g., two source-account mutators)"; operations are
appended. -/
def specApply (acc : ComposeState) : Mutator → Except Error ComposeState
  | Mutator.SourceAccount s =>
    match acc.source with
    | some _ => .error "MutatorConflict"
    | none => .ok { acc with source := some s }
  | Mutator.Sequence n =>
    match acc.sequence with
    | some _ => .error "MutatorConflict"
    | none => .ok { acc with sequence := some n }
  | Mutator.Network p =>
    match acc.network with
    | some _ => .error "MutatorConflict"
    | none => .ok { acc with network := some p }
  | Mutator.Operation payload => .ok { acc with operations := acc.operations ++ [payload] }
  | Mutator.Memo payload =>
    match acc.memo with
    | some _ => .error "MutatorConflict"
    | none => .ok { acc with memo := some payload }

/-- Modelled from the spec: the composer of the ledger-protocol library
(`build.Transaction`), which is not part of the sources at hand, started from
an accumulator.  The spec: "Applies mutators in sequence to an accumulator;
fails with `MutatorConflict` if two mutators attempt to set the same required
field, and with `IncompleteTransaction` if a required field (source, sequence,
network) is missing at finalize time." -/
def specComposeFrom (acc : ComposeState) : List Mutator → TransactionBuilder
  | [] =>
    if acc.source.isNone ∨ acc.sequence.isNone ∨ acc.network.isNone then
      { TX := acc.toTransaction, Err := some "IncompleteTransaction" }
    else { TX := acc.toTransaction, Err := none }
  | m :: ms =>
    match specApply acc m with
    | .error err => { TX := acc.toTransaction, Err := some err }
    | .ok acc1 => specComposeFrom acc1 ms

/-- Modelled from the spec: the composer of the ledger-protocol library
(`build.Transaction`), which is not part of the sources at hand:
`compose(mutators) -> (TransactionBody, error)`. -/
def specCompose (mutators : List Mutator) : TransactionBuilder :=
  specComposeFrom ComposeState.empty mutators

/-- The simulated collaborators with the composer of the spec. -/
def specEnv : Env SimWorld :=
  { simEnv with buildTransaction := specCompose }

/-! ## The sections under the account lock

`account.Mutex` guards two sections of `SignAndSubmitRawTransaction`, and they
hold every access to the counter of a cached account.  These two functions say
what one call, running alone, does in each of them. -/

/-- Lines 109-112: under the lock the counter is incremented and the
transaction of the call is stamped with the new value. -/
def lockedAdvance (account : Account) (tx : Transaction) : Account × Transaction :=
  let account1 : Account :=
    { account with SequenceNumber := (account.SequenceNumber + 1) % uint64Size }
  (account1, { tx with SeqNum := account1.SequenceNumber })

/-- Lines 179-187: under the lock the ledger client is asked for the account
and, unless it fails, the counter is overwritten with what it reports. -/
def lockedSync (account : Account) (reported : AccountResponse) (err2 : Option Error) :
    Account :=
  match err2 with
  | some _ => account
  | none => { account with SequenceNumber := (ParseUint reported.SequenceNumber).1 }

/-- The sequence numbers of the transactions handed to `TransactionHash`, in
program order. -/
def stampedOf (events : List Event) : List Nat :=
  events.filterMap fun ev =>
    match ev with
    | Event.hash tx _ => some tx.SeqNum
    | _ => none

/-! ## Concurrent calls on one account

Goroutines that run `SignAndSubmitRawTransaction` on the same cached account
share the `*Account` and its `Mutex`; each call brings its own transaction.
For a cached account `GetAccount` only reads the map, so the counter is the
only shared state that is written.  Each goroutine is followed statement by
statement through the lines that touch the counter or the mutex (109-112 and
178-187); a scheduler picks which goroutine moves next.  `Lock` can only be
passed while the mutex is free, and `account.SequenceNumber++` is a read
followed by a write.  Lines 114-176 touch neither the counter nor the mutex
and are one step; whether they end at line 178 with the bad-sequence code, and
what `LoadAccount` answers at line 181, is chosen by the schedule. -/

/-- Where a goroutine stands in `SignAndSubmitRawTransaction`. -/
inductive Pc where
  /-- Before line 109, `account.Mutex.Lock()`. -/
  | atLock
  /-- Holding the lock, before line 110 reads the counter. -/
  | atLoad
  /-- Line 110 has read `v` and is about to write `v + 1`. -/
  | atStore (v : Nat)
  /-- Before line 111, `tx.SeqNum = ...`. -/
  | atStamp
  /-- Before line 112, `account.Mutex.Unlock()`. -/
  | atUnlock
  /-- In lines 114-176: hash, sign, persist, submit, persist. -/
  | inFlight
  /-- Before line 179, `account.Mutex.Lock()` of the sync block. -/
  | atSyncLock
  /-- Holding the lock, before lines 180-186 reload the counter. -/
  | atSync
  /-- Before line 187, `account.Mutex.Unlock()` of the sync block. -/
  | atSyncUnlock
  /-- The call has returned. -/
  | returned
  deriving DecidableEq, Repr

/-- Whether the goroutine is between a `Lock` and its `Unlock`. -/
def Pc.holdsLock : Pc → Bool
  | Pc.atLoad => true
  | Pc.atStore _ => true
  | Pc.atStamp => true
  | Pc.atUnlock => true
  | Pc.atSync => true
  | Pc.atSyncUnlock => true
  | _ => false

/-- Whether the goroutine has run line 111. -/
def Pc.hasStamped : Pc → Bool
  | Pc.atLock => false
  | Pc.atLoad => false
  | Pc.atStore _ => false
  | Pc.atStamp => false
  | _ => true

/-- A goroutine: where it stands and the transaction its `tx` points to. -/
structure Goroutine where
  pc : Pc
  tx : Transaction
  deriving DecidableEq, Repr

/-- What the outside answers when a goroutine moves: whether the response it got
in lines 114-176 makes it enter the sync block of line 178, and what the ledger
client answers to the `LoadAccount` of line 181. -/
structure Answer where
  sync : Bool
  reported : AccountResponse
  err2 : Option Error
  deriving DecidableEq, Repr

/-- The state goroutines share: the account, the holder of `account.Mutex`, the
goroutines, and two records kept for the statements: the goroutine and number
of every run of line 111, in order, and how often lines 180-186 have run. -/
structure Shared where
  account : Account
  mutex : Option Nat
  routines : Nat → Goroutine
  stamps : List (Nat × Nat)
  reloads : Nat

/-- The goroutine `i` moved to `pc`. -/
def Shared.move (s : Shared) (i : Nat) (pc : Pc) : Shared :=
  { s with routines := fun j => if j = i then { s.routines i with pc := pc } else s.routines j }

/-- One statement of goroutine `i`; `none` when the goroutine cannot move (it
waits for the mutex, or it has returned). -/
def stepGoroutine (s : Shared) (i : Nat) (answer : Answer) : Option Shared :=
  match (s.routines i).pc with
  | Pc.atLock =>
    match s.mutex with
    | none => some { s.move i Pc.atLoad with mutex := some i }
    | some _ => none
  | Pc.atLoad => some (s.move i (Pc.atStore s.account.SequenceNumber))
  | Pc.atStore v =>
    some { s.move i Pc.atStamp with
           account := { s.account with SequenceNumber := (v + 1) % uint64Size } }
  | Pc.atStamp =>
    some { s with
           routines := fun j =>
             if j = i then
               { pc := Pc.atUnlock
                 tx := { (s.routines i).tx with SeqNum := s.account.SequenceNumber } }
             else s.routines j
           stamps := s.stamps ++ [(i, s.account.SequenceNumber)] }
  | Pc.atUnlock => some { s.move i Pc.inFlight with mutex := none }
  | Pc.inFlight => some (s.move i (if answer.sync then Pc.atSyncLock else Pc.returned))
  | Pc.atSyncLock =>
    match s.mutex with
    | none => some { s.move i Pc.atSync with mutex := some i }
    | some _ => none
  | Pc.atSync =>
    some { s.move i Pc.atSyncUnlock with
           account := lockedSync s.account answer.reported answer.err2
           reloads := s.reloads + 1 }
  | Pc.atSyncUnlock => some { s.move i Pc.returned with mutex := none }
  | Pc.returned => none

/-- A schedule run from a state: at each turn the chosen goroutine makes one
statement, or the turn passes when it cannot move. -/
def runSchedule : Shared → List (Nat × Answer) → Shared
  | s, [] => s
  | s, (i, answer) :: rest =>
    match stepGoroutine s i answer with
    | some s1 => runSchedule s1 rest
    | none => runSchedule s rest

/-- The calls enter `SignAndSubmitRawTransaction` on a cached account: goroutine
`i` submits `txs i`, nobody holds the mutex. -/
def startShared (account : Account) (txs : Nat → Transaction) : Shared :=
  { account := account
    mutex := none
    routines := fun i => { pc := Pc.atLock, tx := txs i }
    stamps := []
    reloads := 0 }

/-- The sequence numbers assigned by line 111 so far, in order. -/
def Shared.assigned (s : Shared) : List Nat := s.stamps.map Prod.snd

/-- The goroutines that have run line 111 so far, in order. -/
def Shared.stampers (s : Shared) : List Nat := s.stamps.map Prod.fst

/-- One if the holder of the mutex has written the counter and not yet stamped
its transaction (it stands before line 111), zero otherwise. -/
def Shared.stampPending (s : Shared) : Nat :=
  match s.mutex with
  | some h => if (s.routines h).pc = Pc.atStamp then 1 else 0
  | none => 0

/-- What holds of the shared state as long as no reload has run, for calls that
started with the counter at `start`: only the holder of the mutex is between
`Lock` and `Unlock`, a value read at line 110 is still the counter, the counter
counts the runs of line 111 (plus the write that is pending), the numbers
assigned are (start + 1), (start + 2), ... modulo 2^64, and every goroutine
that has run line 111 did so once and carries the number it was assigned. -/
structure BatchInv (start : Nat) (s : Shared) : Prop where
  holder : ∀ j, (s.routines j).pc.holdsLock = true → s.mutex = some j
  loaded : ∀ j v, (s.routines j).pc = Pc.atStore v → v = s.account.SequenceNumber
  counter : s.account.SequenceNumber % uint64Size
    = (start + s.stamps.length + s.stampPending) % uint64Size
  written : s.stampPending = 1 → s.account.SequenceNumber < uint64Size
  assigned : s.assigned
    = (List.range' 1 s.stamps.length).map (fun k => (start + k) % uint64Size)
  nodup : s.stampers.Nodup
  stamped : ∀ j, j ∈ s.stampers ↔ (s.routines j).pc.hasStamped = true
  carried : ∀ j n, (j, n) ∈ s.stamps → (s.routines j).tx.SeqNum = n

/-- In lines 114-176 the call got the bad-sequence code, and the ledger client
reports `ledgerSeq` to the `LoadAccount` of line 181. -/
def reloadAnswer (ledgerSeq : Nat) : Answer :=
  { sync := true, reported := { SequenceNumber := FormatUint ledgerSeq }, err2 := none }

/-- Three calls: goroutine 2 takes the lock and reads the counter, goroutines 0
and 1 find the mutex taken, goroutine 2 writes, stamps and unlocks, then
goroutine 0 and goroutine 1 run lines 109-112 in turn. -/
def batchSchedule : List (Nat × Answer) :=
  [(2, reloadAnswer 100), (2, reloadAnswer 100), (0, reloadAnswer 100),
    (1, reloadAnswer 100), (2, reloadAnswer 100), (2, reloadAnswer 100),
    (2, reloadAnswer 100)]
  ++ List.replicate 5 (0, reloadAnswer 100) ++ List.replicate 5 (1, reloadAnswer 100)

/-- Goroutine 2 goes on: it got the bad-sequence code and reloads the counter. -/
def batchReload : List (Nat × Answer) :=
  List.replicate 4 (2, reloadAnswer 100)

/-! ## Basic facts -/

theorem GetAccount_cached {W : Type} (env : Env W) (ts : TransactionSubmitter W)
    (seed : String) (a : Account) (h : ts.Accounts seed = some a) :
    GetAccount env ts seed = ⟨a, none, ts, []⟩ := by
  simp [GetAccount, h]

theorem markTerminal_status (r : SentTransaction) (response : SubmitTransactionResponse) :
    (markTerminal r response).Status ≠ SentTransactionStatus.Sending := by
  unfold markTerminal
  split <;> simp [SentTransaction.MarkSucceeded, SentTransaction.MarkFailed]

theorem LoadAccount_events {W : Type} (env : Env W) (ts : TransactionSubmitter W)
    (seed : String) (ev : Event) (h : ev ∈ (LoadAccount env ts seed).events) :
    ∃ a r e, ev = Event.loadAccount a r e := by
  unfold LoadAccount at h
  split at h
  · simp at h
  · split at h <;> simp at h <;> exact ⟨_, _, _, h⟩

theorem GetAccount_events {W : Type} (env : Env W) (ts : TransactionSubmitter W)
    (seed : String) (ev : Event) (h : ev ∈ (GetAccount env ts seed).events) :
    ∃ a r e, ev = Event.loadAccount a r e := by
  unfold GetAccount at h
  split at h
  · simp at h
  · exact LoadAccount_events env ts seed ev h

theorem loadsOf_nil : loadsOf [] = [] := rfl

theorem loadsOf_append (xs ys : List Event) :
    loadsOf (xs ++ ys) = loadsOf xs ++ loadsOf ys := by
  simp [loadsOf, List.filterMap_append]

theorem loadsOf_persist (r : SentTransaction) (err : Option Error) (xs : List Event) :
    loadsOf (Event.persist r err :: xs) = loadsOf xs := by
  simp [loadsOf, List.filterMap_cons]

theorem loadsOf_hash (t : Transaction) (p : String) (xs : List Event) :
    loadsOf (Event.hash t p :: xs) = loadsOf xs := by
  simp [loadsOf, List.filterMap_cons]

theorem loadsOf_sign (kp : KP) (d : Bytes) (xs : List Event) :
    loadsOf (Event.sign kp d :: xs) = loadsOf xs := by
  simp [loadsOf, List.filterMap_cons]

theorem loadsOf_submit (s : String) (r : SubmitTransactionResponse) (err : Option Error)
    (xs : List Event) : loadsOf (Event.submit s r err :: xs) = loadsOf xs := by
  simp [loadsOf, List.filterMap_cons]

theorem loadsOf_loadAccount (s : String) (r : AccountResponse) (err : Option Error)
    (xs : List Event) : loadsOf (Event.loadAccount s r err :: xs) = (s, r, err) :: loadsOf xs := by
  simp [loadsOf, List.filterMap_cons]

theorem mem_loadsOf (events : List Event) (address : String) (reported : AccountResponse)
    (err : Option Error) :
    (address, reported, err) ∈ loadsOf events ↔ Event.loadAccount address reported err ∈ events := by
  unfold loadsOf
  rw [List.mem_filterMap]
  constructor
  · rintro ⟨ev, hev, hm⟩
    cases ev <;> simp at hm
    obtain ⟨rfl, rfl, rfl⟩ := hm
    exact hev
  · intro hev
    exact ⟨_, hev, rfl⟩

theorem GetAccount_no_submit {W : Type} (env : Env W) (ts : TransactionSubmitter W)
    (seed : String) (s : String) (r : SubmitTransactionResponse) (err : Option Error) :
    Event.submit s r err ∉ (GetAccount env ts seed).events := by
  intro hev
  obtain ⟨_, _, _, hev⟩ := GetAccount_events _ _ _ _ hev
  cases hev

theorem GetAccount_no_persist {W : Type} (env : Env W) (ts : TransactionSubmitter W)
    (seed : String) (r : SentTransaction) (err : Option Error) :
    Event.persist r err ∉ (GetAccount env ts seed).events := by
  intro hev
  obtain ⟨_, _, _, hev⟩ := GetAccount_events _ _ _ _ hev
  cases hev

/-! ## The stamped transaction (lines 109-131) -/

theorem stamped_hash_first {W : Type} (env : Env W) (ts : TransactionSubmitter W)
    (seed : String) (tx : Transaction) (a : Account) (h : ts.Accounts seed = some a) :
    (∃ rest, (SignAndSubmitRawTransaction env ts seed tx).events
        = Event.hash { tx with SeqNum := (a.SequenceNumber + 1) % uint64Size } ts.Network
            :: rest) ∧
    (∀ t p, Event.hash t p ∈ (SignAndSubmitRawTransaction env ts seed tx).events →
        t = { tx with SeqNum := (a.SequenceNumber + 1) % uint64Size }) := by
  unfold SignAndSubmitRawTransaction
  rw [GetAccount_cached env ts seed a h]
  simp only []
  repeat' split
  all_goals simp_all [TransactionSubmitter.setAccount]

theorem needsSync_iff (response : SubmitTransactionResponse) :
    needsSync response = true ↔ resultCode response = some badSequenceResult := by
  unfold needsSync resultCode
  cases response.Extras <;> simp

theorem run_sync {W : Type} (env : Env W) (ts : TransactionSubmitter W)
    (seed : String) (tx : Transaction) (a : Account) (h : ts.Accounts seed = some a)
    (txeB64 : String) (response : SubmitTransactionResponse) (record : SentTransaction)
    (hsub : Event.submit txeB64 response none
      ∈ (SignAndSubmitRawTransaction env ts seed tx).events)
    (hper : Event.persist record none ∈ (SignAndSubmitRawTransaction env ts seed tx).events)
    (hst : record.Status ≠ SentTransactionStatus.Sending) :
    (SignAndSubmitRawTransaction env ts seed tx).outcome = Outcome.returned response none ∧
    (needsSync response = true →
      ∃ address reported lerr,
        loadsOf (SignAndSubmitRawTransaction env ts seed tx).events
          = [(address, reported, lerr)] ∧
        (lerr = none → (SignAndSubmitRawTransaction env ts seed tx).ts.cachedSeq seed
          = some (ParseUint reported.SequenceNumber).1) ∧
        (lerr ≠ none → (SignAndSubmitRawTransaction env ts seed tx).ts.cachedSeq seed
          = some ((a.SequenceNumber + 1) % uint64Size))) ∧
    (needsSync response = false →
      loadsOf (SignAndSubmitRawTransaction env ts seed tx).events = [] ∧
      (SignAndSubmitRawTransaction env ts seed tx).ts.cachedSeq seed
        = some ((a.SequenceNumber + 1) % uint64Size)) := by
  revert hsub hper
  unfold SignAndSubmitRawTransaction
  rw [GetAccount_cached env ts seed a h]
  simp only []
  repeat' split
  all_goals intro hsub hper
  all_goals simp_all [loadsOf_append, loadsOf_persist, loadsOf_hash, loadsOf_sign,
    loadsOf_submit, loadsOf_loadAccount, loadsOf_nil, TransactionSubmitter.setAccount,
    TransactionSubmitter.cachedSeq]
  all_goals refine ⟨_, _, _, ⟨rfl, rfl, rfl⟩, ?_⟩
  all_goals simp_all

theorem GetAccount_ok_loads {W : Type} (env : Env W) (ts : TransactionSubmitter W)
    (seed : String) (hok : (GetAccount env ts seed).err = none) (address : String)
    (reported : AccountResponse) (e : Error) :
    Event.loadAccount address reported (some e) ∉ (GetAccount env ts seed).events := by
  revert hok
  unfold GetAccount
  split
  · simp
  · unfold LoadAccount
    split
    · simp
    · split <;> simp

theorem run_recovery {W : Type} (env : Env W) (ts : TransactionSubmitter W)
    (seed : String) (tx : Transaction)
    (txeB64 : String) (response : SubmitTransactionResponse) (record : SentTransaction)
    (hsub : Event.submit txeB64 response none
      ∈ (SignAndSubmitRawTransaction env ts seed tx).events)
    (hper : Event.persist record none ∈ (SignAndSubmitRawTransaction env ts seed tx).events)
    (hst : record.Status ≠ SentTransactionStatus.Sending) :
    (SignAndSubmitRawTransaction env ts seed tx).outcome = Outcome.returned response none ∧
    (∀ address reported e, Event.loadAccount address reported (some e)
        ∈ (SignAndSubmitRawTransaction env ts seed tx).events →
      (SignAndSubmitRawTransaction env ts seed tx).ts.cachedSeq seed
        = some (((GetAccount env ts seed).account.SequenceNumber + 1) % uint64Size)) ∧
    (needsSync response = true →
      ∃ address reported lerr,
        (SignAndSubmitRawTransaction env ts seed tx).events.getLast?
          = some (Event.loadAccount address reported lerr)) := by
  have hget1 := GetAccount_no_submit env ts seed
  have hget2 := GetAccount_no_persist env ts seed
  have hget3 := GetAccount_ok_loads env ts seed
  revert hsub hper
  unfold SignAndSubmitRawTransaction
  generalize GetAccount env ts seed = got at *
  simp only []
  repeat' split
  all_goals intro hsub hper
  all_goals simp_all [TransactionSubmitter.setAccount, TransactionSubmitter.cachedSeq,
    List.getLast?_append, List.getLast?_cons_cons]

theorem TransactionHash_load_irrelevant {W : Type} (env : Env W)
    (f : W → String → (AccountResponse × Option Error) × W) (tx : Transaction) (p : String) :
    TransactionHash { env with horizonLoadAccount := f } tx p = TransactionHash env tx p := rfl

theorem outcome_load_irrelevant {W : Type} (env : Env W)
    (f : W → String → (AccountResponse × Option Error) × W) (ts : TransactionSubmitter W)
    (seed : String) (tx : Transaction) (a : Account) (h : ts.Accounts seed = some a) :
    (SignAndSubmitRawTransaction { env with horizonLoadAccount := f } ts seed tx).outcome
      = (SignAndSubmitRawTransaction env ts seed tx).outcome := by
  unfold SignAndSubmitRawTransaction
  rw [GetAccount_cached env ts seed a h, GetAccount_cached _ ts seed a h]
  simp only [TransactionHash_load_irrelevant]
  repeat' split
  all_goals simp_all

/-! ## ParseUint reads back FormatUint -/

theorem decDigit_spec (d : Nat) (h : d < 10) :
    (decDigit d).isDigit = true ∧ (decDigit d).toNat - 48 = d := by
  interval_cases d <;> decide

theorem parseUintLoop_snoc (cs : List Char) :
    ∀ acc v, parseUintLoop cs acc = (v, none) → ∀ d, d < 10 → v * 10 + d ≤ maxUint64 →
      parseUintLoop (cs ++ [decDigit d]) acc = (v * 10 + d, none) := by
  induction cs with
  | nil =>
    intro acc v hv d hd hle
    simp only [parseUintLoop, Prod.mk.injEq, and_true] at hv
    subst hv
    have hlt : ¬ acc ≥ maxUint64 / 10 + 1 := by
      unfold maxUint64 at hle ⊢
      omega
    simp [parseUintLoop, (decDigit_spec d hd).1, (decDigit_spec d hd).2, hlt, hle]
  | cons c cs ih =>
    intro acc v hv d hd hle
    simp only [List.cons_append, parseUintLoop] at hv ⊢
    split at hv
    · split at hv
      · simp at hv
      · split at hv
        · simp at hv
        · rename_i h1 h2 h3
          simp only [h1, h2, h3, if_true, if_false]
          exact ih _ v hv d hd hle
    · simp at hv

theorem formatUintAux_ne_nil (fuel n : Nat) : formatUintAux (fuel + 1) n ≠ [] := by
  unfold formatUintAux
  split <;> simp

theorem parseUintLoop_formatUintAux (fuel : Nat) :
    ∀ n, n < 10 ^ (fuel + 1) → n ≤ maxUint64 →
      parseUintLoop (formatUintAux (fuel + 1) n) 0 = (n, none) := by
  induction fuel with
  | zero =>
    intro n hn hle
    have h10 : n < 10 := by simpa using hn
    have := parseUintLoop_snoc [] 0 0 rfl n h10 (by omega)
    simpa [formatUintAux, h10] using this
  | succ k ih =>
    intro n hn hle
    by_cases h10 : n < 10
    · have := parseUintLoop_snoc [] 0 0 rfl n h10 (by omega)
      simpa [formatUintAux, h10] using this
    · have hdiv : n / 10 < 10 ^ (k + 1) := by
        rw [Nat.div_lt_iff_lt_mul (by decide)]
        calc n < 10 ^ (k + 1 + 1) := hn
          _ = 10 ^ (k + 1) * 10 := by rw [pow_succ]
      have hrec := ih (n / 10) hdiv (le_trans (Nat.div_le_self n 10) hle)
      have hsnoc := parseUintLoop_snoc _ 0 (n / 10) hrec (n % 10) (Nat.mod_lt n (by decide))
        (by omega)
      have hval : n / 10 * 10 + n % 10 = n := by omega
      rw [hval] at hsnoc
      rw [formatUintAux, if_neg h10]
      exact hsnoc

theorem ParseUint_FormatUint (n : Nat) (h : n ≤ maxUint64) :
    ParseUint (FormatUint n) = (n, none) := by
  have hlt : n < 10 ^ (19 + 1) := by
    unfold maxUint64 at h
    omega
  have hp := parseUintLoop_formatUintAux 19 n hlt h
  have hne := formatUintAux_ne_nil 19 n
  have hcons : ∀ cs : List Char, cs ≠ [] →
      ParseUint (String.mk cs) = parseUintLoop cs 0 := by
    intro cs hcs
    cases cs with
    | nil => exact absurd rfl hcs
    | cons c cs => rfl
  unfold FormatUint
  rw [hcons _ hne]
  exact hp

/-! ## The simulated ledger is a counter -/

theorem simLedger_le (w : SimWorld) : simLedger w ≤ maxUint64 := by
  unfold simLedger
  exact min_le_right _ _

theorem simLedgerModel : LedgerModel simEnv simLedger where
  now_ledger := by
    intro w
    rfl
  persist_ledger := by
    intro w record
    show simLedger (simPersist w record).2 = simLedger w
    unfold simPersist
    split <;> rfl
  load_ledger := by
    intro w address
    show simLedger (simLoadAccount w address).2 = simLedger w
    unfold simLoadAccount
    split <;> rfl
  load_reports := by
    intro w address
    show (simLoadAccount w address).1.2 = none →
      ParseUint (simLoadAccount w address).1.1.SequenceNumber = (simLedger w, none)
    unfold simLoadAccount
    split
    · simp
    · intro _
      exact ParseUint_FormatUint _ (simLedger_le w)
    · intro _
      exact ParseUint_FormatUint _ (simLedger_le w)
  submit_ledger := by
    intro w e txeB64 hm
    have hlen : txeB64.length = e.Tx.SeqNum := by
      have h1 : simMarshalBase64 e = Except.ok txeB64 := hm
      simp only [simMarshalBase64, Except.ok.injEq] at h1
      rw [← h1]
      simp [String.length]
    have hans : ∀ v : SimWorld, simLedger v = simLedger w →
        simLedger (simLedgerAnswer v txeB64.length).2 = simLedger w ∨
        (e.Tx.SeqNum = simLedger w + 1 ∧
          simLedger (simLedgerAnswer v txeB64.length).2 = simLedger w + 1) := by
      intro v hv
      unfold simLedgerAnswer
      split
      · rename_i hacc
        right
        rw [hv] at hacc
        refine ⟨by omega, ?_⟩
        show min txeB64.length maxUint64 = simLedger w + 1
        rw [min_eq_left hacc.2]
        exact hacc.1
      · left
        exact hv
    show simLedger (simSubmitTransaction w txeB64).2 = simLedger w ∨
      (e.Tx.SeqNum = simLedger w + 1 ∧
        simLedger (simSubmitTransaction w txeB64).2 = simLedger w + 1)
    unfold simSubmitTransaction
    split
    · left
      rfl
    · exact hans _ rfl
    · exact hans _ rfl

/-! ## The cached counter against a counter ledger -/

theorem submit_step {W : Type} {env : Env W} {ledger : W → Nat} (hm : LedgerModel env ledger)
    (w : W) (e : TransactionEnvelope) (txeB64 : String)
    (hmar : env.xdrMarshalBase64 e = Except.ok txeB64) (r : Option Error)
    (_hr : (env.horizonSubmitTransaction w txeB64).1.2 = r) :
    ledger (env.horizonSubmitTransaction w txeB64).2 = ledger w ∨
    (e.Tx.SeqNum = ledger w + 1 ∧
      ledger (env.horizonSubmitTransaction w txeB64).2 = ledger w + 1) :=
  hm.submit_ledger w e txeB64 hmar

theorem load_step {W : Type} {env : Env W} {ledger : W → Nat} (hm : LedgerModel env ledger)
    (w : W) (address : String) (h : (env.horizonLoadAccount w address).1.2 = none) :
    (ParseUint (env.horizonLoadAccount w address).1.1.SequenceNumber).1 = ledger w := by
  rw [hm.load_reports w address h]

theorem GetAccount_ledger {W : Type} {env : Env W} {ledger : W → Nat}
    (hm : LedgerModel env ledger) (ts : TransactionSubmitter W) (seed : String)
    (hinv : ∀ a, ts.Accounts seed = some a → a.SequenceNumber ≤ ledger ts.world + 1) :
    (GetAccount env ts seed).ts.Accounts seed = some (GetAccount env ts seed).account ∧
    ledger (GetAccount env ts seed).ts.world = ledger ts.world ∧
    (GetAccount env ts seed).account.SequenceNumber ≤ ledger ts.world + 1 ∧
    ((GetAccount env ts seed).account.SequenceNumber = ledger ts.world + 1 →
      ts.cachedSeq seed = some (ledger ts.world + 1)) := by
  unfold GetAccount
  split
  · rename_i account hacc
    have := hinv account hacc
    simp_all [TransactionSubmitter.cachedSeq]
  · rename_i hnone
    unfold LoadAccount
    split
    · simp [TransactionSubmitter.setAccount, Account.zero]
    · rename_i kp _
      split
      · rename_i accountResponse err w heq
        have h1 := hm.load_ledger ts.world kp.Address
        rw [heq] at h1
        simp [TransactionSubmitter.setAccount, Account.zero, h1]
      · rename_i accountResponse w heq
        have h1 := hm.load_ledger ts.world kp.Address
        have h2 := hm.load_reports ts.world kp.Address
        rw [heq] at h1 h2
        simp only [forall_true_left] at h2
        simp [TransactionSubmitter.setAccount, h1, h2]

theorem cache_bound_core {W : Type} {env : Env W} {ledger : W → Nat}
    (hm : LedgerModel env ledger) (ts : TransactionSubmitter W) (seed : String)
    (tx : Transaction)
    (hinv : ∀ a, ts.Accounts seed = some a → a.SequenceNumber ≤ ledger ts.world + 1) :
    ∀ c, (SignAndSubmitRawTransaction env ts seed tx).ts.cachedSeq seed = some c →
      c ≤ ledger (SignAndSubmitRawTransaction env ts seed tx).ts.world + 1 ∨
      (ts.cachedSeq seed = some (ledger ts.world + 1) ∧ c = ledger ts.world + 2 ∧
        ledger (SignAndSubmitRawTransaction env ts seed tx).ts.world = ledger ts.world) := by
  obtain ⟨g1, g2, g3, g4⟩ := GetAccount_ledger hm ts seed hinv
  unfold SignAndSubmitRawTransaction
  generalize GetAccount env ts seed = got at *
  simp only []
  repeat' split
  all_goals try
    (have hs := submit_step hm _ _ _ ‹env.xdrMarshalBase64 _ = Except.ok _› _
      ‹(env.horizonSubmitTransaction _ _).1.2 = _›)
  all_goals try (have hl := load_step hm _ _ ‹(env.horizonLoadAccount _ _).1.2 = none›)
  all_goals simp_all [TransactionSubmitter.setAccount, TransactionSubmitter.cachedSeq,
    hm.now_ledger, hm.persist_ledger, hm.load_ledger, uint64Size]
  all_goals by_cases hb : got.account.SequenceNumber = ledger ts.world + 1
  all_goals first
    | (left; omega)
    | (have hP := g4 hb
       simp only [hP, true_and]
       omega)

/-! ## Claims -/

/-- C2: when persisting the Sending record returns an error, the call makes no
call to the ledger client's SubmitTransaction and returns that error. -/
theorem persist_failure_aborts {W : Type} (env : Env W) (ts : TransactionSubmitter W)
    (seed : String) (tx : Transaction) (record : SentTransaction) (e : Error)
    (hmem : Event.persist record (some e) ∈ (SignAndSubmitRawTransaction env ts seed tx).events)
    (hsending : record.Status = SentTransactionStatus.Sending) :
    (∀ s resp err,
        Event.submit s resp err ∉ (SignAndSubmitRawTransaction env ts seed tx).events) ∧
      (SignAndSubmitRawTransaction env ts seed tx).outcome
        = Outcome.returned SubmitTransactionResponse.zero (some e) := by
  have hget1 : ∀ r err, Event.persist r err ∉ (GetAccount env ts seed).events := by
    intro r err h
    obtain ⟨_, _, _, h⟩ := GetAccount_events _ _ _ _ h
    cases h
  have hget2 : ∀ s r err, Event.submit s r err ∉ (GetAccount env ts seed).events := by
    intro s r err h
    obtain ⟨_, _, _, h⟩ := GetAccount_events _ _ _ _ h
    cases h
  have hterm := markTerminal_status
  revert hmem
  unfold SignAndSubmitRawTransaction
  generalize GetAccount env ts seed = got at *
  simp only []
  repeat' split
  all_goals intro hmem
  all_goals simp_all

/-- Witness for C2: the store refuses the Sending record. -/
theorem persist_failure_aborts_witness :
    Event.persist (simSendingRecord 101 1) (some "db down")
      ∈ (SignAndSubmitRawTransaction simEnv
          (simSubmitter 100 { simWorld 100 with persistPlan := [some "db down"] })
          simSeed simTx).events ∧
    (simSendingRecord 101 1).Status = SentTransactionStatus.Sending ∧
    (SignAndSubmitRawTransaction simEnv
        (simSubmitter 100 { simWorld 100 with persistPlan := [some "db down"] })
        simSeed simTx).outcome
      = Outcome.returned SubmitTransactionResponse.zero (some "db down") :=
  ⟨by decide, by decide,
    (persist_failure_aborts simEnv
      (simSubmitter 100 { simWorld 100 with persistPlan := [some "db down"] })
      simSeed simTx (simSendingRecord 101 1) "db down" (by decide) (by decide)).2⟩

/-- C4, refuted as stated: the ledger client answers with a response that
carries ledger 7 and, in its extras, the bad-sequence result code.  The
response is not a rejection: line 161 sees the ledger number and the record is
persisted as Succeeded with ledger 7.  Line 178 looks at the extras only, so
LoadAccount is called all the same and the cached counter, 106 after the
increment, is overwritten with the 100 the ledger reports. -/
theorem reload_on_accepted_response :
    (simSubmitter 105 (simWorld 100)).cachedSeq simSeed = some 105 ∧
    submitsOf (SignAndSubmitRawTransaction simEnvSucceededBadSequence
        (simSubmitter 105 (simWorld 100)) simSeed simTx).events
      = [(String.mk (List.replicate 106 'x'), simSucceededBadSequence, none)] ∧
    simSucceededBadSequence.Ledger = some 7 ∧
    resultCode simSucceededBadSequence = some badSequenceResult ∧
    (persistsOf (SignAndSubmitRawTransaction simEnvSucceededBadSequence
        (simSubmitter 105 (simWorld 100)) simSeed simTx).events).map
        (fun p => (p.1.Status, p.1.Ledger, p.1.ResultXdr, p.2))
      = [(SentTransactionStatus.Sending, none, none, none),
          (SentTransactionStatus.Succeeded, some 7, none, none)] ∧
    (SignAndSubmitRawTransaction simEnvSucceededBadSequence
        (simSubmitter 105 (simWorld 100)) simSeed simTx).outcome
      = Outcome.returned simSucceededBadSequence none ∧
    loadsOf (SignAndSubmitRawTransaction simEnvSucceededBadSequence
        (simSubmitter 105 (simWorld 100)) simSeed simTx).events
      = [("GEED", { SequenceNumber := "100" }, none)] ∧
    (SignAndSubmitRawTransaction simEnvSucceededBadSequence
        (simSubmitter 105 (simWorld 100)) simSeed simTx).ts.cachedSeq simSeed = some 100 ∧
    ¬ ((∃ address reported lerr, Event.loadAccount address reported lerr
          ∈ (SignAndSubmitRawTransaction simEnvSucceededBadSequence
              (simSubmitter 105 (simWorld 100)) simSeed simTx).events)
        ↔ (simSucceededBadSequence.Ledger = none ∧
            resultCode simSucceededBadSequence = some badSequenceResult)) :=
  ⟨by decide, by decide, by decide, by decide, by decide, by decide, by decide, by decide,
    fun hiff =>
      absurd (hiff.1 ⟨"GEED", { SequenceNumber := "100" }, none, by decide⟩).1 (by decide)⟩

/-- C4, amended: on a cached account with counter S, a call that received a
ledger response and persisted the terminal record reloads from the ledger
client exactly when the response carries the bad-sequence result code in its
extras, whether or not it also carries a ledger number.  Then LoadAccount is
called once and, if it succeeds, the cached counter becomes the sequence
number it reports; for every other result code, or none, LoadAccount is not
called and the cached counter is (S+1) mod 2^64. -/
theorem resync_only_on_bad_sequence {W : Type} (env : Env W) (ts : TransactionSubmitter W)
    (seed : String) (tx : Transaction) (a : Account) (h : ts.Accounts seed = some a)
    (txeB64 : String) (response : SubmitTransactionResponse) (record : SentTransaction)
    (hsub : Event.submit txeB64 response none
      ∈ (SignAndSubmitRawTransaction env ts seed tx).events)
    (hper : Event.persist record none ∈ (SignAndSubmitRawTransaction env ts seed tx).events)
    (hst : record.Status ≠ SentTransactionStatus.Sending) :
    ((∃ address reported lerr, Event.loadAccount address reported lerr
        ∈ (SignAndSubmitRawTransaction env ts seed tx).events)
      ↔ resultCode response = some badSequenceResult) ∧
    (resultCode response = some badSequenceResult →
      ∃ address reported lerr,
        loadsOf (SignAndSubmitRawTransaction env ts seed tx).events
          = [(address, reported, lerr)] ∧
        (lerr = none → (SignAndSubmitRawTransaction env ts seed tx).ts.cachedSeq seed
          = some (ParseUint reported.SequenceNumber).1)) ∧
    (resultCode response ≠ some badSequenceResult →
      loadsOf (SignAndSubmitRawTransaction env ts seed tx).events = [] ∧
      (SignAndSubmitRawTransaction env ts seed tx).ts.cachedSeq seed
        = some ((a.SequenceNumber + 1) % uint64Size)) := by
  obtain ⟨_, hyes, hno⟩ := run_sync env ts seed tx a h txeB64 response record hsub hper hst
  have hno2 : resultCode response ≠ some badSequenceResult →
      loadsOf (SignAndSubmitRawTransaction env ts seed tx).events = [] ∧
      (SignAndSubmitRawTransaction env ts seed tx).ts.cachedSeq seed
        = some ((a.SequenceNumber + 1) % uint64Size) := by
    intro hne
    apply hno
    cases hb : needsSync response
    · rfl
    · exact absurd ((needsSync_iff response).1 hb) hne
  refine ⟨⟨?_, ?_⟩, ?_, hno2⟩
  · rintro ⟨address, reported, lerr, hmem⟩
    by_contra hne
    have hnil := (hno2 hne).1
    have hin := (mem_loadsOf _ address reported lerr).2 hmem
    rw [hnil] at hin
    cases hin
  · intro hcode
    obtain ⟨address, reported, lerr, hl, _⟩ := hyes ((needsSync_iff response).2 hcode)
    refine ⟨address, reported, lerr, (mem_loadsOf _ address reported lerr).1 ?_⟩
    rw [hl]
    exact List.mem_singleton.2 rfl
  · intro hcode
    obtain ⟨address, reported, lerr, hl, hok, _⟩ := hyes ((needsSync_iff response).2 hcode)
    exact ⟨address, reported, lerr, hl, hok⟩

/-- Witness for C4 (amended): the cache holds 105 while the ledger is at 100;
the ledger rejects sequence 106 with the bad-sequence code and the reload sets the cache
to 100. -/
theorem resync_only_on_bad_sequence_witness :
    ((simSubmitter 105 (simWorld 100)).Accounts simSeed = some (simAccount 105) ∧
      Event.submit (String.mk (List.replicate 106 'x')) simBadSequence none
        ∈ (SignAndSubmitRawTransaction simEnv (simSubmitter 105 (simWorld 100))
            simSeed simTx).events ∧
      Event.persist (markTerminal (simSendingRecord 106 1) simBadSequence) none
        ∈ (SignAndSubmitRawTransaction simEnv (simSubmitter 105 (simWorld 100))
            simSeed simTx).events ∧
      (markTerminal (simSendingRecord 106 1) simBadSequence).Status
        ≠ SentTransactionStatus.Sending) ∧
    ((∃ address reported lerr, Event.loadAccount address reported lerr
        ∈ (SignAndSubmitRawTransaction simEnv (simSubmitter 105 (simWorld 100))
            simSeed simTx).events)
      ↔ resultCode simBadSequence = some badSequenceResult) ∧
    loadsOf (SignAndSubmitRawTransaction simEnv (simSubmitter 105 (simWorld 100))
        simSeed simTx).events = [("GEED", { SequenceNumber := "100" }, none)] ∧
    (SignAndSubmitRawTransaction simEnv (simSubmitter 105 (simWorld 100))
        simSeed simTx).ts.cachedSeq simSeed = some 100 :=
  ⟨⟨by decide, by decide, by decide, by decide⟩,
    (resync_only_on_bad_sequence simEnv (simSubmitter 105 (simWorld 100)) simSeed simTx
      (simAccount 105) (by decide) (String.mk (List.replicate 106 'x')) simBadSequence
      (markTerminal (simSendingRecord 106 1) simBadSequence)
      (by decide) (by decide) (by decide)).1,
    by decide, by decide⟩

/-- C5, refuted as stated: the ledger response carries the bad-sequence code,
the terminal update of the record fails, and the call returns the response
with that persistence error, not with a nil error; no reload is attempted. -/
theorem bad_sequence_with_store_error :
    Event.submit (String.mk (List.replicate 106 'x')) simBadSequence none
      ∈ (SignAndSubmitRawTransaction simEnv (simSubmitter 105 simWorldStoreDownLater)
          simSeed simTx).events ∧
    resultCode simBadSequence = some badSequenceResult ∧
    (SignAndSubmitRawTransaction simEnv (simSubmitter 105 simWorldStoreDownLater)
        simSeed simTx).outcome = Outcome.returned simBadSequence (some "db down") ∧
    loadsOf (SignAndSubmitRawTransaction simEnv (simSubmitter 105 simWorldStoreDownLater)
        simSeed simTx).events = [] := by
  decide

/-- C5, amended: for every call whose ledger response carries the
bad-sequence code and whose terminal record was persisted without error, the
call ends with the reload attempt and returns that response with a nil error,
whatever LoadAccount answers (on a cached account: also with any other
LoadAccount in place of the given one); when the reload fails the cached
counter keeps the value it had before the reload attempt, the counter
GetAccount found plus one. -/
theorem recovery_invisible_to_caller {W : Type} (env : Env W) (ts : TransactionSubmitter W)
    (seed : String) (tx : Transaction)
    (txeB64 : String) (response : SubmitTransactionResponse) (record : SentTransaction)
    (hsub : Event.submit txeB64 response none
      ∈ (SignAndSubmitRawTransaction env ts seed tx).events)
    (hcode : resultCode response = some badSequenceResult)
    (hper : Event.persist record none ∈ (SignAndSubmitRawTransaction env ts seed tx).events)
    (hst : record.Status ≠ SentTransactionStatus.Sending) :
    (∃ address reported lerr,
      (SignAndSubmitRawTransaction env ts seed tx).events.getLast?
        = some (Event.loadAccount address reported lerr)) ∧
    (SignAndSubmitRawTransaction env ts seed tx).outcome = Outcome.returned response none ∧
    (∀ address reported e, Event.loadAccount address reported (some e)
        ∈ (SignAndSubmitRawTransaction env ts seed tx).events →
      (SignAndSubmitRawTransaction env ts seed tx).ts.cachedSeq seed
        = some (((GetAccount env ts seed).account.SequenceNumber + 1) % uint64Size)) ∧
    (∀ a, ts.Accounts seed = some a →
      ∀ otherLoadAccount : W → String → (AccountResponse × Option Error) × W,
        (SignAndSubmitRawTransaction { env with horizonLoadAccount := otherLoadAccount }
          ts seed tx).outcome = Outcome.returned response none) := by
  obtain ⟨hout, hkeep, hlast⟩ := run_recovery env ts seed tx txeB64 response record hsub hper hst
  refine ⟨hlast ((needsSync_iff response).2 hcode), hout, hkeep, ?_⟩
  intro a h otherLoadAccount
  rw [outcome_load_irrelevant env otherLoadAccount ts seed tx a h]
  exact hout

/-- Witness for C5 (amended): the cache holds 105, the ledger is at 100 and
the reload fails; the caller gets the rejection with a nil error and the cache
stays at 106, as it does when the reload is replaced by one that succeeds. -/
theorem recovery_invisible_to_caller_witness :
    (Event.submit (String.mk (List.replicate 106 'x')) simBadSequence none
        ∈ (SignAndSubmitRawTransaction simEnv (simSubmitter 105 simWorldLoadDown)
            simSeed simTx).events ∧
      resultCode simBadSequence = some badSequenceResult ∧
      Event.persist (markTerminal (simSendingRecord 106 1) simBadSequence) none
        ∈ (SignAndSubmitRawTransaction simEnv (simSubmitter 105 simWorldLoadDown)
            simSeed simTx).events ∧
      (markTerminal (simSendingRecord 106 1) simBadSequence).Status
        ≠ SentTransactionStatus.Sending) ∧
    (SignAndSubmitRawTransaction simEnv (simSubmitter 105 simWorldLoadDown)
        simSeed simTx).outcome = Outcome.returned simBadSequence none ∧
    loadsOf (SignAndSubmitRawTransaction simEnv (simSubmitter 105 simWorldLoadDown)
        simSeed simTx).events
      = [("GEED", { SequenceNumber := "" }, some "horizon unreachable")] ∧
    (SignAndSubmitRawTransaction simEnv (simSubmitter 105 simWorldLoadDown)
        simSeed simTx).ts.cachedSeq simSeed = some 106 :=
  ⟨⟨by decide, by decide, by decide, by decide⟩,
    (recovery_invisible_to_caller simEnv (simSubmitter 105 simWorldLoadDown) simSeed simTx
      (String.mk (List.replicate 106 'x')) simBadSequence
      (markTerminal (simSendingRecord 106 1) simBadSequence)
      (by decide) (by decide) (by decide) (by decide)).2.1,
    by decide, by decide⟩

/-- C6, refuted as stated: cache and ledger both start at 100 and the store is
down.  The first call leaves the cache at 101 with the ledger at 100, a state
that satisfies the invariant; the second call leaves the cache at 102 with the
ledger still at 100, so the invariant cache <= L+1 is not preserved by a call
that fails locally. -/
theorem local_failures_break_bound :
    LedgerModel simEnv simLedger ∧
    (simSubmitter 100 simWorldStoreDown).cachedSeq simSeed = some 100 ∧
    simLedger (simSubmitter 100 simWorldStoreDown).world = 100 ∧
    (SignAndSubmitRawTransaction simEnv (simSubmitter 100 simWorldStoreDown)
        simSeed simTx).outcome
      = Outcome.returned SubmitTransactionResponse.zero (some "db down") ∧
    (SignAndSubmitRawTransaction simEnv (simSubmitter 100 simWorldStoreDown)
        simSeed simTx).ts.cachedSeq simSeed = some 101 ∧
    simLedger (SignAndSubmitRawTransaction simEnv (simSubmitter 100 simWorldStoreDown)
        simSeed simTx).ts.world = 100 ∧
    (SignAndSubmitRawTransaction simEnv
        (SignAndSubmitRawTransaction simEnv (simSubmitter 100 simWorldStoreDown)
          simSeed simTx).ts simSeed simTx).ts.cachedSeq simSeed = some 102 ∧
    simLedger (SignAndSubmitRawTransaction simEnv
        (SignAndSubmitRawTransaction simEnv (simSubmitter 100 simWorldStoreDown)
          simSeed simTx).ts simSeed simTx).ts.world = 100 ∧
    ¬ (∀ c, (SignAndSubmitRawTransaction simEnv
        (SignAndSubmitRawTransaction simEnv (simSubmitter 100 simWorldStoreDown)
          simSeed simTx).ts simSeed simTx).ts.cachedSeq simSeed = some c →
      c ≤ simLedger (SignAndSubmitRawTransaction simEnv
        (SignAndSubmitRawTransaction simEnv (simSubmitter 100 simWorldStoreDown)
          simSeed simTx).ts simSeed simTx).ts.world + 1) :=
  ⟨simLedgerModel, by decide, by decide, by decide, by decide, by decide, by decide,
    by decide, fun hall => absurd (hall 102 (by decide)) (by decide)⟩

/-- C6, amended: with the ledger modelled as a counter L that moves only by
accepting sequence L+1 and that LoadAccount reports, a call started with the
cached counter at most L+1 ends with the cached counter at most L'+1, L' being
the ledger's counter afterwards, unless the call started with the cache at L+1
and ends with the cache at L+2 and the ledger unchanged (the increment is not
rolled back).  In particular every call started with the cached counter at
most L, also one that fails locally or on the network, ends with the cached
counter at most L'+1. -/
theorem cache_bound_after_call {W : Type} (env : Env W) (ledger : W → Nat)
    (hm : LedgerModel env ledger) (ts : TransactionSubmitter W) (seed : String)
    (tx : Transaction)
    (hinv : ∀ a, ts.Accounts seed = some a → a.SequenceNumber ≤ ledger ts.world + 1) :
    (∀ c, (SignAndSubmitRawTransaction env ts seed tx).ts.cachedSeq seed = some c →
      c ≤ ledger (SignAndSubmitRawTransaction env ts seed tx).ts.world + 1 ∨
      (ts.cachedSeq seed = some (ledger ts.world + 1) ∧ c = ledger ts.world + 2 ∧
        ledger (SignAndSubmitRawTransaction env ts seed tx).ts.world = ledger ts.world)) ∧
    ((∀ a, ts.Accounts seed = some a → a.SequenceNumber ≤ ledger ts.world) →
      ∀ c, (SignAndSubmitRawTransaction env ts seed tx).ts.cachedSeq seed = some c →
        c ≤ ledger (SignAndSubmitRawTransaction env ts seed tx).ts.world + 1) := by
  refine ⟨cache_bound_core hm ts seed tx hinv, ?_⟩
  intro hstrict c hc
  rcases cache_bound_core hm ts seed tx hinv c hc with hle | ⟨hstart, _, _⟩
  · exact hle
  · exfalso
    unfold TransactionSubmitter.cachedSeq at hstart
    cases hacc : ts.Accounts seed with
    | none => simp [hacc] at hstart
    | some a =>
      have h1 := hstrict a hacc
      simp [hacc] at hstart
      omega

/-- Witness for C6 (amended): the cache holds 101 while the ledger is at 100;
the ledger rejects sequence 102 and the reload brings the cache back to 100. -/
theorem cache_bound_after_call_witness :
    LedgerModel simEnv simLedger ∧
    (∀ a, (simSubmitter 101 (simWorld 100)).Accounts simSeed = some a →
      a.SequenceNumber ≤ simLedger (simSubmitter 101 (simWorld 100)).world + 1) ∧
    (SignAndSubmitRawTransaction simEnv (simSubmitter 101 (simWorld 100))
        simSeed simTx).ts.cachedSeq simSeed = some 100 ∧
    (∀ c, (SignAndSubmitRawTransaction simEnv (simSubmitter 101 (simWorld 100))
        simSeed simTx).ts.cachedSeq simSeed = some c →
      c ≤ simLedger (SignAndSubmitRawTransaction simEnv (simSubmitter 101 (simWorld 100))
        simSeed simTx).ts.world + 1 ∨
      ((simSubmitter 101 (simWorld 100)).cachedSeq simSeed
          = some (simLedger (simSubmitter 101 (simWorld 100)).world + 1) ∧
        c = simLedger (simSubmitter 101 (simWorld 100)).world + 2 ∧
        simLedger (SignAndSubmitRawTransaction simEnv (simSubmitter 101 (simWorld 100))
          simSeed simTx).ts.world = simLedger (simSubmitter 101 (simWorld 100)).world)) :=
  have hinv : ∀ a, (simSubmitter 101 (simWorld 100)).Accounts simSeed = some a →
      a.SequenceNumber ≤ simLedger (simSubmitter 101 (simWorld 100)).world + 1 := by
    intro a ha
    have h0 : (simSubmitter 101 (simWorld 100)).Accounts simSeed = some (simAccount 101) := by
      decide
    rw [h0] at ha
    cases ha
    decide
  ⟨simLedgerModel, hinv, by decide,
    (cache_bound_after_call simEnv simLedger simLedgerModel (simSubmitter 101 (simWorld 100))
      simSeed simTx hinv).1⟩

/-- C7, the code at a failing input: the cache is empty and Horizon is
unreachable.  GetAccount returns the error and yet stores the half-built
account (counter 0, empty seed) under the seed; the next GetAccount returns
that account with a nil error and without asking the ledger.  Likewise for a
malformed seed, whose cached account has a nil keypair: the next submit call
gets past GetAccount and panics when it signs. -/
theorem failed_load_is_cached :
    (simFreshSubmitter simWorldLoadDown).Accounts simSeed = none ∧
    (GetAccount simEnv (simFreshSubmitter simWorldLoadDown) simSeed).err
      = some "horizon unreachable" ∧
    (GetAccount simEnv (simFreshSubmitter simWorldLoadDown) simSeed).ts.Accounts simSeed
      = some { Keypair := some { Address := "GEED", Key := "SEED" }, Seed := "",
               SequenceNumber := 0 } ∧
    (GetAccount simEnv
        (GetAccount simEnv (simFreshSubmitter simWorldLoadDown) simSeed).ts simSeed).err
      = none ∧
    (GetAccount simEnv
        (GetAccount simEnv (simFreshSubmitter simWorldLoadDown) simSeed).ts simSeed).events
      = [] ∧
    (InitAccount simEnv
        (InitAccount simEnv (simFreshSubmitter simWorldLoadDown) simSeed).2.1 simSeed).1
      = none ∧
    (GetAccount simEnv (simFreshSubmitter (simWorld 100)) "bad").err = some "invalid seed" ∧
    (GetAccount simEnv (simFreshSubmitter (simWorld 100)) "bad").ts.Accounts "bad"
      = some Account.zero ∧
    (SignAndSubmitRawTransaction simEnv
        (GetAccount simEnv (simFreshSubmitter (simWorld 100)) "bad").ts "bad" simTx).outcome
      = Outcome.panicked := by
  decide

/-- C8, the code at a failing input: the operation makes the builder report an
error.  BuildTransaction returns that error, but SubmitTransaction drops it:
the transaction is signed, persisted twice and submitted, and the call returns
the ledger's answer with a nil error. -/
theorem builder_error_is_dropped :
    (simEnv.buildTransaction
        [Mutator.SourceAccount "SEED", Mutator.Network simPassphrase,
          Mutator.Operation ""]).Err = some "invalid operation" ∧
    (BuildTransaction simEnv "GEED" simPassphrase
        (Iface.mutator (Mutator.Operation "")) Iface.nil).2 = some "invalid operation" ∧
    (SubmitTransaction simEnv (simSubmitter 100 (simWorld 100)) simSeed
        (Iface.mutator (Mutator.Operation "")) Iface.nil).outcome
      = Outcome.returned { Ledger := some 7101, Extras := none } none ∧
    (persistsOf (SubmitTransaction simEnv (simSubmitter 100 (simWorld 100)) simSeed
        (Iface.mutator (Mutator.Operation "")) Iface.nil).events).length = 2 ∧
    (submitsOf (SubmitTransaction simEnv (simSubmitter 100 (simWorld 100)) simSeed
        (Iface.mutator (Mutator.Operation "")) Iface.nil).events).length = 1 := by
  decide

/-- C10: TransactionHash is the hash of the passphrase hash (its 32 bytes),
followed by the XDR encoding of the envelope type EnvelopeTypeTx, followed by
the XDR encoding of the transaction; it fails only with the error of an XDR
encoding step.  Being a function of the transaction and the passphrase alone,
it is deterministic. -/
theorem TransactionHash_matches_spec {W : Type} (env : Env W) (tx : Transaction)
    (networkPassphrase : String) :
    TransactionHash env tx networkPassphrase = specComputeHash env tx networkPassphrase ∧
    (env.hashHash (stringBytes networkPassphrase)).val.length = 32 ∧
    (∀ typeBytes bodyBytes,
      env.xdrMarshalEnvelopeType EnvelopeType.EnvelopeTypeTx = Except.ok typeBytes →
      env.xdrMarshalTransaction tx = Except.ok bodyBytes →
      TransactionHash env tx networkPassphrase
        = Except.ok (env.hashHash
            ((env.hashHash (stringBytes networkPassphrase)).val ++ typeBytes ++ bodyBytes))) ∧
    (∀ err, TransactionHash env tx networkPassphrase = Except.error err →
      env.xdrMarshalEnvelopeType EnvelopeType.EnvelopeTypeTx = Except.error err ∨
      env.xdrMarshalTransaction tx = Except.error err) := by
  refine ⟨?_, (env.hashHash (stringBytes networkPassphrase)).property, ?_, ?_⟩
  · unfold TransactionHash specComputeHash fprintfDigest marshalInto
    cases env.xdrMarshalEnvelopeType EnvelopeType.EnvelopeTypeTx <;>
      cases env.xdrMarshalTransaction tx <;> simp
  · intro typeBytes bodyBytes ht hb
    unfold TransactionHash fprintfDigest marshalInto
    simp [ht, hb]
  · intro err
    unfold TransactionHash fprintfDigest marshalInto
    cases env.xdrMarshalEnvelopeType EnvelopeType.EnvelopeTypeTx <;>
      cases env.xdrMarshalTransaction tx <;> simp
    intro heq
    exact Or.inl heq

/-- Witness for C10: the simulated encoders succeed, so the hash is that of the
passphrase hash followed by the two encodings. -/
theorem TransactionHash_matches_spec_witness :
    simEnv.xdrMarshalEnvelopeType EnvelopeType.EnvelopeTypeTx = Except.ok [0, 0, 0, 2] ∧
    simEnv.xdrMarshalTransaction simTx = Except.ok [0, 7] ∧
    TransactionHash simEnv simTx simPassphrase
      = Except.ok (simEnv.hashHash
          ((simEnv.hashHash (stringBytes simPassphrase)).val ++ [0, 0, 0, 2] ++ [0, 7])) :=
  ⟨rfl, rfl,
    (TransactionHash_matches_spec simEnv simTx simPassphrase).2.2.1 [0, 0, 0, 2] [0, 7]
      rfl rfl⟩

/-! ## BuildTransaction -/

theorem specApply_sequence (acc acc1 : ComposeState) (m : Mutator)
    (h : specApply acc m = Except.ok acc1) :
    (∀ n, acc.sequence = some n → acc1.sequence = some n) ∧
    (∀ n, m = Mutator.Sequence n → acc1.sequence = some n) := by
  cases m <;> simp only [specApply] at h
  all_goals try split at h
  all_goals simp at h
  all_goals subst h
  all_goals simp_all

theorem specComposeFrom_sequence (ms : List Mutator) :
    ∀ acc, (specComposeFrom acc ms).Err = none →
      (∀ n, acc.sequence = some n → (specComposeFrom acc ms).TX.SeqNum = n) ∧
      (∀ n, Mutator.Sequence n ∈ ms → (specComposeFrom acc ms).TX.SeqNum = n) := by
  induction ms with
  | nil =>
    intro acc herr
    refine ⟨?_, ?_⟩
    · intro n hn
      unfold specComposeFrom
      split <;> simp [ComposeState.toTransaction, hn]
    · intro n hmem
      cases hmem
  | cons m ms ih =>
    intro acc herr
    unfold specComposeFrom at herr ⊢
    cases happ : specApply acc m with
    | error err => simp [happ] at herr
    | ok acc1 =>
      simp only [happ] at herr ⊢
      obtain ⟨hkeep, hset⟩ := specApply_sequence acc acc1 m happ
      obtain ⟨ih1, ih2⟩ := ih acc1 herr
      refine ⟨?_, ?_⟩
      · intro n hn
        exact ih1 n (hkeep n hn)
      · intro n hmem
        rcases List.mem_cons.1 hmem with heq | hin
        · exact ih1 n (hset n heq.symm)
        · exact ih2 n hin

theorem BuildTransaction_mutators {W : Type} (env : Env W)
    (accountID networkPassphrase : String) (operation memo : Iface) (tx : Transaction)
    (h : BuildTransaction env accountID networkPassphrase operation memo = (some tx, none)) :
    ∃ ms, Mutator.Sequence 0 ∈ ms ∧ (env.buildTransaction ms).TX = tx ∧
      (env.buildTransaction ms).Err = none := by
  cases operation <;> cases memo <;>
    simp only [BuildTransaction, Prod.mk.injEq, Option.some.injEq, reduceCtorEq, false_and,
      and_false] at h
  · exact ⟨_, by simp, h.1, h.2⟩
  · exact ⟨_, by simp, h.1, h.2⟩

/-- C11: with the composer the spec describes, a transaction BuildTransaction
returns without error has sequence number 0.  BuildTransaction takes no
submitter and no world, and its result depends on no collaborator but the
composer (no keypair, signing, ledger client, store or clock).  It returns an
error and no transaction when the operation is not a transaction mutator, and
when the memo is not nil and not a transaction mutator. -/
theorem BuildTransaction_contract {W : Type} (env : Env W)
    (hb : env.buildTransaction = specCompose)
    (accountID networkPassphrase : String) (operation memo : Iface) :
    (∀ tx, BuildTransaction env accountID networkPassphrase operation memo = (some tx, none) →
      tx.SeqNum = 0) ∧
    (∀ (W2 : Type) (env2 : Env W2), env2.buildTransaction = env.buildTransaction →
      BuildTransaction env2 accountID networkPassphrase operation memo
        = BuildTransaction env accountID networkPassphrase operation memo) ∧
    ((∀ m, operation ≠ Iface.mutator m) →
      BuildTransaction env accountID networkPassphrase operation memo
        = (none, some "Cannot cast operationMutator to build.TransactionMutator")) ∧
    (∀ m typeName, operation = Iface.mutator m → memo = Iface.other typeName →
      BuildTransaction env accountID networkPassphrase operation memo
        = (none, some "Cannot cast memo to build.TransactionMutator")) := by
  refine ⟨?_, ?_, ?_, ?_⟩
  · intro tx htx
    obtain ⟨ms, hmem, htxeq, herr⟩ :=
      BuildTransaction_mutators env accountID networkPassphrase operation memo tx htx
    rw [hb] at htxeq herr
    rw [← htxeq]
    exact (specComposeFrom_sequence ms ComposeState.empty herr).2 0 hmem
  · intro W2 env2 h2
    cases operation <;> cases memo <;> simp [BuildTransaction, h2]
  · intro hop
    cases operation with
    | nil => rfl
    | other typeName => rfl
    | mutator m => exact absurd rfl (hop m)
  · intro m typeName hop hmemo
    subst hop hmemo
    rfl

/-- Witness for C11: a payment with a memo composes to a transaction with
sequence number 0, and an operation that is itself a sequence mutator is a
conflict for the composer, so no transaction is returned without error. -/
theorem BuildTransaction_contract_witness :
    specEnv.buildTransaction = specCompose ∧
    BuildTransaction specEnv "GEED" simPassphrase (Iface.mutator (Mutator.Operation "pay"))
        (Iface.mutator (Mutator.Memo "hi"))
      = (some { SeqNum := 0, Rest := "GEED|pay|hi" }, none) ∧
    (BuildTransaction specEnv "GEED" simPassphrase (Iface.mutator (Mutator.Sequence 5))
        Iface.nil).2 = some "MutatorConflict" ∧
    (∀ tx, BuildTransaction specEnv "GEED" simPassphrase
        (Iface.mutator (Mutator.Operation "pay")) (Iface.mutator (Mutator.Memo "hi"))
          = (some tx, none) → tx.SeqNum = 0) :=
  ⟨rfl, by decide, by decide,
    (BuildTransaction_contract specEnv rfl "GEED" simPassphrase
      (Iface.mutator (Mutator.Operation "pay")) (Iface.mutator (Mutator.Memo "hi"))).1⟩

/-! ## Concurrent calls on one account -/

theorem run_lock_sections {W : Type} (env : Env W) (ts : TransactionSubmitter W)
    (seed : String) (tx : Transaction) (a : Account) (h : ts.Accounts seed = some a) :
    (∃ rest, (SignAndSubmitRawTransaction env ts seed tx).events
        = Event.hash (lockedAdvance a tx).2 ts.Network :: rest) ∧
    ((SignAndSubmitRawTransaction env ts seed tx).ts.Accounts seed
        = some (lockedAdvance a tx).1 ∨
      ∃ address reported err2,
        Event.loadAccount address reported err2
          ∈ (SignAndSubmitRawTransaction env ts seed tx).events ∧
        (SignAndSubmitRawTransaction env ts seed tx).ts.Accounts seed
          = some (lockedSync (lockedAdvance a tx).1 reported err2)) := by
  refine ⟨(stamped_hash_first env ts seed tx a h).1, ?_⟩
  unfold SignAndSubmitRawTransaction
  rw [GetAccount_cached env ts seed a h]
  simp only []
  repeat' split
  all_goals simp_all [TransactionSubmitter.setAccount, lockedAdvance, lockedSync]
  all_goals exact Or.inr ⟨_, _, _, ⟨rfl, rfl, rfl⟩, by simp_all⟩

theorem startShared_inv (account : Account) (txs : Nat → Transaction) :
    BatchInv account.SequenceNumber (startShared account txs) where
  holder := by intro j h; simp [startShared, Pc.holdsLock] at h
  loaded := by intro j v h; simp [startShared] at h
  counter := by simp [startShared, Shared.stampPending]
  written := by simp [startShared, Shared.stampPending]
  assigned := by simp [startShared, Shared.assigned]
  nodup := by simp [startShared, Shared.stampers]
  stamped := by intro j; simp [startShared, Shared.stampers, Pc.hasStamped]
  carried := by intro j n h; simp [startShared] at h

theorem move_inv (start : Nat) (s : Shared) (i : Nat) (pc : Pc) (m : Option Nat)
    (hinv : BatchInv start s)
    (hstore : ∀ v, pc = Pc.atStore v → v = s.account.SequenceNumber)
    (hst : pc.hasStamped = (s.routines i).pc.hasStamped)
    (hholder : ∀ j, ((s.move i pc).routines j).pc.holdsLock = true → m = some j)
    (hpend : Shared.stampPending { s.move i pc with mutex := m } = s.stampPending) :
    BatchInv start { s.move i pc with mutex := m } where
  holder := hholder
  loaded := by
    intro j v hj
    by_cases hji : j = i
    · subst hji
      exact hstore v (by simpa [Shared.move] using hj)
    · exact hinv.loaded j v (by simpa [Shared.move, hji] using hj)
  counter := by
    rw [hpend]
    exact hinv.counter
  written := by
    rw [hpend]
    exact hinv.written
  assigned := hinv.assigned
  nodup := hinv.nodup
  stamped := by
    intro j
    by_cases hji : j = i
    · subst hji
      have := hinv.stamped j
      simpa [Shared.move, Shared.stampers, hst] using this
    · simpa [Shared.move, Shared.stampers, hji] using hinv.stamped j
  carried := by
    intro j n hj
    by_cases hji : j = i
    · subst hji
      simpa [Shared.move] using hinv.carried j n hj
    · simpa [Shared.move, hji] using hinv.carried j n hj

theorem stampPending_move (s : Shared) (i : Nat) (pc : Pc)
    (hold : (s.routines i).pc ≠ Pc.atStamp) (hnew : pc ≠ Pc.atStamp) :
    Shared.stampPending { s.move i pc with mutex := s.mutex } = s.stampPending := by
  unfold Shared.stampPending
  cases s.mutex with
  | none => rfl
  | some h =>
    by_cases hh : h = i
    · subst hh
      simp [Shared.move, hold, hnew]
    · simp [Shared.move, hh]

theorem stampPending_holder (s : Shared) (i : Nat) (hm : s.mutex = some i)
    (hold : (s.routines i).pc ≠ Pc.atStamp) : s.stampPending = 0 := by
  simp [Shared.stampPending, hm, hold]

theorem holder_unique (start : Nat) (s : Shared) (i j : Nat) (hinv : BatchInv start s)
    (hi : (s.routines i).pc.holdsLock = true) (hj : (s.routines j).pc.holdsLock = true) :
    j = i := by
  have h1 := hinv.holder i hi
  have h2 := hinv.holder j hj
  rw [h1] at h2
  exact (Option.some.inj h2).symm

theorem step_inv (start : Nat) (s s1 : Shared) (i : Nat) (answer : Answer)
    (hinv : BatchInv start s) (hstep : stepGoroutine s i answer = some s1)
    (hre : s1.reloads = 0) : BatchInv start s1 := by
  unfold stepGoroutine at hstep
  cases hpc : (s.routines i).pc with
  | atLock =>
    simp only [hpc] at hstep
    cases hm : s.mutex with
    | some h => simp [hm] at hstep
    | none =>
      simp only [hm, Option.some.injEq] at hstep
      subst hstep
      apply move_inv start s i Pc.atLoad (some i) hinv
      · intro v hv
        cases hv
      · simp [hpc, Pc.hasStamped]
      · intro j hj
        by_cases hji : j = i
        · rw [hji]
        · have := hinv.holder j (by simpa [Shared.move, hji] using hj)
          rw [hm] at this
          cases this
      · simp [Shared.stampPending, Shared.move, hm]
  | atLoad =>
    simp only [hpc, Option.some.injEq] at hstep
    subst hstep
    have hi : (s.routines i).pc.holdsLock = true := by simp [hpc, Pc.holdsLock]
    refine move_inv start s i (Pc.atStore s.account.SequenceNumber) s.mutex hinv ?_ ?_ ?_ ?_
    · intro v hv
      cases hv
      rfl
    · simp [hpc, Pc.hasStamped]
    · intro j hj
      by_cases hji : j = i
      · rw [hji]
        exact hinv.holder i hi
      · exact hinv.holder j (by simpa [Shared.move, hji] using hj)
    · exact stampPending_move s i _ (by simp [hpc]) (by simp)
  | atStore v =>
    simp only [hpc, Option.some.injEq] at hstep
    subst hstep
    have hi : (s.routines i).pc.holdsLock = true := by simp [hpc, Pc.holdsLock]
    have hm := hinv.holder i hi
    have hv := hinv.loaded i v hpc
    have hp0 := stampPending_holder s i hm (by simp [hpc])
    have hc := hinv.counter
    rw [hp0] at hc
    constructor
    · intro j hj
      by_cases hji : j = i
      · rw [hji]
        exact hm
      · exact hinv.holder j (by simpa [Shared.move, hji] using hj)
    · intro j w hj
      by_cases hji : j = i
      · subst hji
        simp [Shared.move] at hj
      · have hj2 : (s.routines j).pc = Pc.atStore w := by simpa [Shared.move, hji] using hj
        exact absurd (holder_unique start s i j hinv hi (by simp [hj2, Pc.holdsLock])) hji
    · have hp1 : Shared.stampPending
          { s.move i Pc.atStamp with
            account := { s.account with SequenceNumber := (v + 1) % uint64Size } } = 1 := by
        simp [Shared.stampPending, Shared.move, hm]
      rw [hp1]
      simp only [Shared.move]
      rw [hv]
      unfold uint64Size at hc ⊢
      omega
    · intro _
      exact Nat.mod_lt _ (by decide)
    · exact hinv.assigned
    · exact hinv.nodup
    · intro j
      by_cases hji : j = i
      · subst hji
        have := hinv.stamped j
        simpa [Shared.move, Shared.stampers, Pc.hasStamped, hpc] using this
      · simpa [Shared.move, Shared.stampers, hji] using hinv.stamped j
    · intro j n hj
      by_cases hji : j = i
      · subst hji
        simpa [Shared.move] using hinv.carried j n hj
      · simpa [Shared.move, hji] using hinv.carried j n hj
  | atStamp =>
    simp only [hpc, Option.some.injEq] at hstep
    subst hstep
    have hi : (s.routines i).pc.holdsLock = true := by simp [hpc, Pc.holdsLock]
    have hm := hinv.holder i hi
    have hp1 : s.stampPending = 1 := by simp [Shared.stampPending, hm, hpc]
    have hc := hinv.counter
    have hw := hinv.written hp1
    rw [hp1] at hc
    have hnot : i ∉ s.stampers := by
      intro hmem
      have := (hinv.stamped i).1 hmem
      simp [hpc, Pc.hasStamped] at this
    constructor
    · intro j hj
      by_cases hji : j = i
      · rw [hji]
        exact hm
      · exact hinv.holder j (by simpa [hji] using hj)
    · intro j w hj
      by_cases hji : j = i
      · subst hji
        simp at hj
      · exact hinv.loaded j w (by simpa [hji] using hj)
    · have hp0 : Shared.stampPending
          { s with
            routines := fun j =>
              if j = i then
                { pc := Pc.atUnlock
                  tx := { (s.routines i).tx with SeqNum := s.account.SequenceNumber } }
              else s.routines j
            stamps := s.stamps ++ [(i, s.account.SequenceNumber)] } = 0 := by
        simp [Shared.stampPending, hm]
      rw [hp0]
      simp only [List.length_append, List.length_singleton]
      unfold uint64Size at hc ⊢
      omega
    · intro hp
      simp [Shared.stampPending, hm] at hp
    · have ha := hinv.assigned
      simp only [Shared.assigned] at ha ⊢
      simp only [List.map_append, List.map_cons, List.map_nil, List.length_append,
        List.length_singleton, List.range'_1_concat, ha]
      congr 1
      have : s.account.SequenceNumber = (start + (1 + s.stamps.length)) % uint64Size := by
        unfold uint64Size at hc hw ⊢
        omega
      rw [this]
    · simp only [Shared.stampers, List.map_append, List.map_cons, List.map_nil]
      exact List.Nodup.append hinv.nodup (List.nodup_singleton i)
        (by
          intro a ha hb
          simp only [List.mem_singleton] at hb
          subst hb
          exact hnot ha)
    · intro j
      by_cases hji : j = i
      · subst hji
        simp [Shared.stampers, Pc.hasStamped]
      · have := hinv.stamped j
        simpa [Shared.stampers, hji] using this
    · intro j n hj
      rcases List.mem_append.1 hj with hold | hnew
      · have hjs : j ∈ s.stampers := List.mem_map.2 ⟨(j, n), hold, rfl⟩
        have hji : j ≠ i := fun h => hnot (h ▸ hjs)
        simpa [hji] using hinv.carried j n hold
      · simp only [List.mem_singleton, Prod.mk.injEq] at hnew
        obtain ⟨rfl, rfl⟩ := hnew
        simp
  | atUnlock =>
    simp only [hpc, Option.some.injEq] at hstep
    subst hstep
    have hi : (s.routines i).pc.holdsLock = true := by simp [hpc, Pc.holdsLock]
    have hm := hinv.holder i hi
    apply move_inv start s i Pc.inFlight none hinv
    · intro v hv
      cases hv
    · simp [hpc, Pc.hasStamped]
    · intro j hj
      by_cases hji : j = i
      · subst hji
        simp [Shared.move, Pc.holdsLock] at hj
      · have hj2 : (s.routines j).pc.holdsLock = true := by simpa [Shared.move, hji] using hj
        exact absurd (holder_unique start s i j hinv hi hj2) hji
    · rw [stampPending_holder s i hm (by simp [hpc])]
      simp [Shared.stampPending]
  | inFlight =>
    simp only [hpc, Option.some.injEq] at hstep
    subst hstep
    refine move_inv start s i _ s.mutex hinv ?_ ?_ ?_ ?_
    · intro v hv
      cases hs : answer.sync <;> simp [hs] at hv
    · cases hs : answer.sync <;> simp [hpc, Pc.hasStamped]
    · intro j hj
      by_cases hji : j = i
      · subst hji
        cases hs : answer.sync <;> simp [Shared.move, Pc.holdsLock, hs] at hj
      · exact hinv.holder j (by simpa [Shared.move, hji] using hj)
    · exact stampPending_move s i _ (by simp [hpc]) (by cases hs : answer.sync <;> simp)
  | atSyncLock =>
    simp only [hpc] at hstep
    cases hm : s.mutex with
    | some h => simp [hm] at hstep
    | none =>
      simp only [hm, Option.some.injEq] at hstep
      subst hstep
      apply move_inv start s i Pc.atSync (some i) hinv
      · intro v hv
        cases hv
      · simp [hpc, Pc.hasStamped]
      · intro j hj
        by_cases hji : j = i
        · rw [hji]
        · have := hinv.holder j (by simpa [Shared.move, hji] using hj)
          rw [hm] at this
          cases this
      · simp [Shared.stampPending, Shared.move, hm]
  | atSync =>
    simp only [hpc, Option.some.injEq] at hstep
    subst hstep
    simp at hre
  | atSyncUnlock =>
    simp only [hpc, Option.some.injEq] at hstep
    subst hstep
    have hi : (s.routines i).pc.holdsLock = true := by simp [hpc, Pc.holdsLock]
    have hm := hinv.holder i hi
    apply move_inv start s i Pc.returned none hinv
    · intro v hv
      cases hv
    · simp [hpc, Pc.hasStamped]
    · intro j hj
      by_cases hji : j = i
      · subst hji
        simp [Shared.move, Pc.holdsLock] at hj
      · have hj2 : (s.routines j).pc.holdsLock = true := by simpa [Shared.move, hji] using hj
        exact absurd (holder_unique start s i j hinv hi hj2) hji
    · rw [stampPending_holder s i hm (by simp [hpc])]
      simp [Shared.stampPending]
  | returned => simp [hpc] at hstep

theorem stepGoroutine_reloads (s s1 : Shared) (i : Nat) (answer : Answer)
    (hstep : stepGoroutine s i answer = some s1) : s.reloads ≤ s1.reloads := by
  unfold stepGoroutine at hstep
  split at hstep
  all_goals try split at hstep
  all_goals simp only [Option.some.injEq, reduceCtorEq] at hstep
  all_goals subst hstep
  all_goals simp [Shared.move]

theorem runSchedule_reloads (sched : List (Nat × Answer)) :
    ∀ s : Shared, s.reloads ≤ (runSchedule s sched).reloads := by
  induction sched with
  | nil =>
    intro s
    exact Nat.le_refl _
  | cons turn rest ih =>
    intro s
    obtain ⟨i, answer⟩ := turn
    simp only [runSchedule]
    cases hstep : stepGoroutine s i answer with
    | none => exact ih s
    | some s1 => exact Nat.le_trans (stepGoroutine_reloads s s1 i answer hstep) (ih s1)

theorem runSchedule_append (xs ys : List (Nat × Answer)) :
    ∀ s : Shared, runSchedule s (xs ++ ys) = runSchedule (runSchedule s xs) ys := by
  induction xs with
  | nil =>
    intro s
    rfl
  | cons turn rest ih =>
    intro s
    obtain ⟨i, answer⟩ := turn
    simp only [List.cons_append, runSchedule]
    cases stepGoroutine s i answer with
    | none => exact ih s
    | some s1 => exact ih s1

theorem runSchedule_inv (start : Nat) (sched : List (Nat × Answer)) :
    ∀ s : Shared, BatchInv start s → (runSchedule s sched).reloads = 0 →
      BatchInv start (runSchedule s sched) := by
  induction sched with
  | nil =>
    intro s hinv _
    exact hinv
  | cons turn rest ih =>
    intro s hinv hre
    obtain ⟨i, answer⟩ := turn
    simp only [runSchedule] at hre ⊢
    cases hstep : stepGoroutine s i answer with
    | none =>
      simp only [hstep] at hre
      exact ih s hinv hre
    | some s1 =>
      simp only [hstep] at hre
      have h1 : s1.reloads = 0 := Nat.le_zero.1 (hre ▸ runSchedule_reloads rest s1)
      exact ih s1 (step_inv start s s1 i answer hinv hstep h1) hre

theorem stepGoroutine_keeps (s s1 : Shared) (i j : Nat) (answer : Answer)
    (hstep : stepGoroutine s i answer = some s1)
    (hj : (s.routines j).pc.hasStamped = true) :
    (s1.routines j).pc.hasStamped = true ∧ (s1.routines j).tx = (s.routines j).tx := by
  unfold stepGoroutine at hstep
  by_cases hji : j = i
  · subst hji
    cases hpc : (s.routines j).pc
    all_goals simp only [hpc] at hstep
    all_goals try split at hstep
    all_goals simp only [Option.some.injEq, reduceCtorEq] at hstep
    all_goals try subst hstep
    all_goals simp_all [Shared.move, Pc.hasStamped]
  · split at hstep
    all_goals try split at hstep
    all_goals simp only [Option.some.injEq, reduceCtorEq] at hstep
    all_goals subst hstep
    all_goals simp [Shared.move, hji, hj]

theorem runSchedule_keeps (j : Nat) (sched : List (Nat × Answer)) :
    ∀ s : Shared, (s.routines j).pc.hasStamped = true →
      ((runSchedule s sched).routines j).tx = (s.routines j).tx := by
  induction sched with
  | nil =>
    intro s _
    rfl
  | cons turn rest ih =>
    intro s hj
    obtain ⟨i, answer⟩ := turn
    simp only [runSchedule]
    cases hstep : stepGoroutine s i answer with
    | none => exact ih s hj
    | some s1 =>
      have h1 := stepGoroutine_keeps s s1 i j answer hstep hj
      simp only []
      rw [ih s1 h1.1, h1.2]

theorem solo_run (account : Account) (tx : Transaction) (answer : Answer) :
    ((runSchedule (startShared account (fun _ => tx)) (List.replicate 9 (0, answer))).routines 0).tx
      = (lockedAdvance account tx).2 ∧
    (runSchedule (startShared account (fun _ => tx)) (List.replicate 9 (0, answer))).account
      = (if answer.sync then
          lockedSync (lockedAdvance account tx).1 answer.reported answer.err2
        else (lockedAdvance account tx).1) := by
  cases hs : answer.sync <;>
    simp [List.replicate, runSchedule, stepGoroutine, startShared, Shared.move, lockedAdvance, hs]

theorem batch_numbers (account : Account) (txs : Nat → Transaction) (n : Nat)
    (sched later : List (Nat × Answer))
    (hno : (runSchedule (startShared account txs) sched).reloads = 0)
    (hall : ∀ i, i ∈ (runSchedule (startShared account txs) sched).stampers ↔ i < n) :
    (runSchedule (startShared account txs) sched).assigned
      = (List.range' 1 n).map (fun k => (account.SequenceNumber + k) % uint64Size) ∧
    ((List.range n).map fun i =>
        ((runSchedule (startShared account txs) (sched ++ later)).routines i).tx.SeqNum).Perm
      (runSchedule (startShared account txs) sched).assigned := by
  have hinv := runSchedule_inv account.SequenceNumber sched (startShared account txs)
    (startShared_inv account txs) hno
  have hperm : (runSchedule (startShared account txs) sched).stampers.Perm (List.range n) :=
    (List.perm_ext_iff_of_nodup hinv.nodup (List.nodup_range n)).2
      (fun i => by rw [hall, List.mem_range])
  have hlen : (runSchedule (startShared account txs) sched).stamps.length = n := by
    have := hperm.length_eq
    simpa [Shared.stampers] using this
  refine ⟨?_, ?_⟩
  · rw [hinv.assigned, hlen]
  · have hmap : (runSchedule (startShared account txs) sched).stampers.map (fun i =>
          ((runSchedule (startShared account txs) (sched ++ later)).routines i).tx.SeqNum)
        = (runSchedule (startShared account txs) sched).assigned := by
      simp only [Shared.stampers, Shared.assigned, List.map_map]
      apply List.map_congr_left
      intro p hp
      simp only [Function.comp]
      have hst := (hinv.stamped p.1).1 (List.mem_map.2 ⟨p, hp, rfl⟩)
      rw [runSchedule_append, runSchedule_keeps p.1 later _ hst]
      exact hinv.carried p.1 p.2 hp
    rw [← hmap]
    exact (hperm.map _).symm

theorem range_numbers (start n : Nat) (h : start + n < uint64Size) :
    (List.range' 1 n).map (fun k => (start + k) % uint64Size) = List.range' (start + 1) n := by
  rw [← List.map_add_range' start 1 n 1]
  apply List.map_congr_left
  intro k hk
  have hk2 := (List.mem_range'_1.1 hk).2
  exact Nat.mod_eq_of_lt (by omega)

theorem solo_call {W : Type} (env : Env W) (ts : TransactionSubmitter W)
    (seed : String) (account : Account) (hcached : ts.Accounts seed = some account)
    (tx : Transaction) :
    ∃ answer rest,
      (SignAndSubmitRawTransaction env ts seed tx).events
        = Event.hash ((runSchedule (startShared account (fun _ => tx))
            (List.replicate 9 (0, answer))).routines 0).tx ts.Network :: rest ∧
      (SignAndSubmitRawTransaction env ts seed tx).ts.Accounts seed
        = some (runSchedule (startShared account (fun _ => tx))
            (List.replicate 9 (0, answer))).account := by
  obtain ⟨⟨rest, hev⟩, hacc⟩ := run_lock_sections env ts seed tx account hcached
  rcases hacc with hadv | ⟨address, reported, err2, _, hsync⟩
  · refine ⟨⟨false, { SequenceNumber := "" }, none⟩, rest, ?_, ?_⟩
    · rw [(solo_run account tx _).1]
      exact hev
    · rw [(solo_run account tx _).2]
      simpa using hadv
  · refine ⟨⟨true, reported, err2⟩, rest, ?_, ?_⟩
    · rw [(solo_run account tx _).1]
      exact hev
    · rw [(solo_run account tx _).2]
      simpa using hsync

/-- C12, refuted as stated: two submit calls on the account cached at 105
while the ledger is at 100.  The first call is assigned 106, the ledger answers
the bad-sequence code and the reload sets the cache to 100; the second call is
assigned 101.  The numbers assigned, 106 and 101, are not the set of 106 and
107.  The same happens with two goroutines when the first runs through its
reload before the second takes the lock. -/
theorem reload_breaks_consecutive_numbers :
    (simSubmitter 105 (simWorld 100)).cachedSeq simSeed = some 105 ∧
    (stampedOf (SignAndSubmitRawTransaction simEnv (simSubmitter 105 (simWorld 100))
        simSeed simTx).events).head? = some 106 ∧
    (SignAndSubmitRawTransaction simEnv (simSubmitter 105 (simWorld 100))
        simSeed simTx).outcome = Outcome.returned simBadSequence none ∧
    (SignAndSubmitRawTransaction simEnv (simSubmitter 105 (simWorld 100))
        simSeed simTx).ts.cachedSeq simSeed = some 100 ∧
    (stampedOf (SignAndSubmitRawTransaction simEnv
        (SignAndSubmitRawTransaction simEnv (simSubmitter 105 (simWorld 100))
          simSeed simTx).ts simSeed simTx).events).head? = some 101 ∧
    (runSchedule (startShared (simAccount 105) (fun _ => simTx))
        (List.replicate 9 (0, reloadAnswer 100)
          ++ List.replicate 5 (1, reloadAnswer 100))).stamps = [(0, 106), (1, 101)] ∧
    (List.range 2).map (fun i =>
        ((runSchedule (startShared (simAccount 105) (fun _ => simTx))
          (List.replicate 9 (0, reloadAnswer 100)
            ++ List.replicate 5 (1, reloadAnswer 100))).routines i).tx.SeqNum)
      = [106, 101] ∧
    ¬ (∀ q, q ∈ (List.range 2).map (fun i =>
        ((runSchedule (startShared (simAccount 105) (fun _ => simTx))
          (List.replicate 9 (0, reloadAnswer 100)
            ++ List.replicate 5 (1, reloadAnswer 100))).routines i).tx.SeqNum)
        ↔ 105 + 1 ≤ q ∧ q ≤ 105 + 2) :=
  ⟨by decide, by decide, by decide, by decide, by decide, by decide, by decide,
    fun hall => absurd ((hall 107).2 ⟨by decide, by decide⟩) (by decide)⟩

/-- C12, amended: goroutines run `SignAndSubmitRawTransaction` on the same
cached account with counter S, interleaved statement by statement in any way
the mutex allows; a goroutine alone in such a run stamps the transaction and
leaves the cache exactly as one call of `SignAndSubmitRawTransaction` does.
If at some point of the run the calls 0, ..., N-1 and no others have run line
111 and no reload (lines 180-186) has run yet, then the numbers assigned so
far are (S+1) mod 2^64, ..., (S+N) mod 2^64 in the order the lock was taken,
and whatever happens later (reloads and ledger answers included) the
transactions of the N calls carry exactly these numbers; when S+N < 2^64 they
are exactly S+1, ..., S+N, with no duplicates and no gaps. -/
theorem batch_sequence_numbers {W : Type} (env : Env W) (ts : TransactionSubmitter W)
    (seed : String) (account : Account) (txs : Nat → Transaction) (n : Nat)
    (sched later : List (Nat × Answer))
    (hcached : ts.Accounts seed = some account)
    (hno : (runSchedule (startShared account txs) sched).reloads = 0)
    (hall : ∀ i, i ∈ (runSchedule (startShared account txs) sched).stampers ↔ i < n) :
    (∀ tx, ∃ answer rest,
      (SignAndSubmitRawTransaction env ts seed tx).events
        = Event.hash ((runSchedule (startShared account (fun _ => tx))
            (List.replicate 9 (0, answer))).routines 0).tx ts.Network :: rest ∧
      (SignAndSubmitRawTransaction env ts seed tx).ts.Accounts seed
        = some (runSchedule (startShared account (fun _ => tx))
            (List.replicate 9 (0, answer))).account) ∧
    (runSchedule (startShared account txs) sched).assigned
      = (List.range' 1 n).map (fun k => (account.SequenceNumber + k) % uint64Size) ∧
    ((List.range n).map fun i =>
        ((runSchedule (startShared account txs) (sched ++ later)).routines i).tx.SeqNum).Perm
      ((List.range' 1 n).map (fun k => (account.SequenceNumber + k) % uint64Size)) ∧
    (account.SequenceNumber + n < uint64Size →
      ((List.range n).map fun i =>
          ((runSchedule (startShared account txs) (sched ++ later)).routines i).tx.SeqNum).Perm
        (List.range' (account.SequenceNumber + 1) n) ∧
      ((List.range n).map fun i =>
          ((runSchedule (startShared account txs) (sched ++ later)).routines i).tx.SeqNum).Nodup ∧
      ∀ q, q ∈ ((List.range n).map fun i =>
          ((runSchedule (startShared account txs) (sched ++ later)).routines i).tx.SeqNum)
        ↔ account.SequenceNumber + 1 ≤ q ∧ q ≤ account.SequenceNumber + n) := by
  obtain ⟨hassigned, hperm⟩ := batch_numbers account txs n sched later hno hall
  rw [hassigned] at hperm
  refine ⟨solo_call env ts seed account hcached, hassigned, hperm, ?_⟩
  intro hbound
  rw [range_numbers account.SequenceNumber n hbound] at hperm
  refine ⟨hperm, hperm.nodup_iff.2 (List.nodup_range' _ _), ?_⟩
  intro q
  rw [hperm.mem_iff, List.mem_range'_1]
  omega

theorem batchSchedule_stampers (i : Nat) :
    i ∈ (runSchedule (startShared (simAccount 100) (fun _ => simTx)) batchSchedule).stampers
      ↔ i < 3 := by
  have hs : (runSchedule (startShared (simAccount 100) (fun _ => simTx))
      batchSchedule).stampers = [2, 0, 1] := by decide
  rw [hs]
  simp only [List.mem_cons, List.mem_singleton, List.not_mem_nil, or_false]
  omega

/-- Witness for C12 (amended): three goroutines on the account cached at 100.
Goroutine 2 takes the lock and reads the counter, goroutines 0 and 1 try the
lock in vain, goroutine 2 finishes lines 110-112, then goroutine 0 and
goroutine 1 run lines 109-112; afterwards goroutine 2 reloads the counter.  The
calls are assigned 102, 103 and 101. -/
theorem batch_sequence_numbers_witness :
    (simSubmitter 100 (simWorld 100)).Accounts simSeed = some (simAccount 100) ∧
    (runSchedule (startShared (simAccount 100) (fun _ => simTx)) batchSchedule).reloads = 0 ∧
    (∀ i, i ∈ (runSchedule (startShared (simAccount 100) (fun _ => simTx))
        batchSchedule).stampers ↔ i < 3) ∧
    (simAccount 100).SequenceNumber + 3 < uint64Size ∧
    (runSchedule (startShared (simAccount 100) (fun _ => simTx)) batchSchedule).stamps
      = [(2, 101), (0, 102), (1, 103)] ∧
    (runSchedule (startShared (simAccount 100) (fun _ => simTx))
      (batchSchedule ++ batchReload)).account.SequenceNumber = 100 ∧
    (List.range 3).map (fun i =>
        ((runSchedule (startShared (simAccount 100) (fun _ => simTx))
          (batchSchedule ++ batchReload)).routines i).tx.SeqNum) = [102, 103, 101] ∧
    ((List.range 3).map fun i =>
        ((runSchedule (startShared (simAccount 100) (fun _ => simTx))
          (batchSchedule ++ batchReload)).routines i).tx.SeqNum).Perm
      (List.range' ((simAccount 100).SequenceNumber + 1) 3) :=
  ⟨by decide, by decide, batchSchedule_stampers, by decide, by decide, by decide, by decide,
    ((batch_sequence_numbers simEnv (simSubmitter 100 (simWorld 100)) simSeed (simAccount 100)
      (fun _ => simTx) 3 batchSchedule batchReload (by decide) (by decide)
      batchSchedule_stampers).2.2.2 (by decide)).1⟩

end Submitter
